import Mathlib

/-!
Verification of the raven-backend hybrid retrieval engine.

This file is a shallow embedding, in Lean 4, of the data model and the
operations of the `raven-backend` repository (src/models.py, src/config.py,
src/search_engines.py, src/query_processor.py, src/service.py), together
with theorems settling the specification claims about that code.

Modelling conventions:
* Python floats are modelled as rationals (`ℚ`); every comparison the code
  performs is at a value exactly representable, so boundary behaviour is
  preserved.
* Python `int` is modelled as `ℤ`; Python list slicing `xs[:k]` (which for
  a negative `k` drops `-k` elements from the end) is modelled by `pyTake`.
* Python `dict` (insertion ordered, unique string keys) is modelled as an
  association list, with lookup `dget` and in-place update `dmodify`.
* External collaborators (the sentence-transformer encoder, the OpenAI
  query analyzer and result selector) are black boxes per the spec; they
  enter as explicit parameters (`enc : String → List ℚ`, an `Analysis`
  record, a `SelectionOutcome` record).
-/

namespace Raven

/-! ## Data model (src/models.py) -/

inductive ContentType where
  | table
  | figure
  | text
deriving DecidableEq, Repr

structure BoundingBox where
  top_left_x : ℤ
  top_left_y : ℤ
  width : ℤ
  height : ℤ
deriving DecidableEq, Repr

structure Citation where
  page_no : ℤ
  bounding_box : BoundingBox
  confidence : Option ℚ
deriving DecidableEq, Repr

/-- `ContentItem` from src/models.py.  The open `metadata : Dict[str, Any]`
map is never read by any component in scope; it is modelled as an
association list of strings. -/
structure ContentItem where
  id : String
  content_type : ContentType
  title : Option String
  content : String
  citation : Citation
  metadata : List (String × String)
  image_url : Option String
deriving DecidableEq, Repr

structure SearchResult where
  content_item : ContentItem
  relevance_score : ℚ
  match_type : String
deriving DecidableEq, Repr

/-! ## Configuration (src/config.py) -/

structure Config where
  EMBEDDING_MODEL : String := "Alibaba-NLP/gte-multilingual-base"
  OPENAI_MODEL : String := "gpt-4.1"
  EMBEDDING_DIMENSION : ℕ := 768
  MAX_RESULTS : ℤ := 10
  SIMILARITY_THRESHOLD : ℚ := 7/10
  INDEX_PATH : String := "faiss_index"
deriving Repr

/-- The one configuration instance of the program (all values are the class
attributes of `Config` in src/config.py). -/
def config : Config := {}

/-! ## Python semantics helpers -/

/-- Python list slicing `xs[:k]` for `k : int`: for `k ≥ 0` the first `k`
elements, for `k < 0` all but the last `-k` elements. -/
def pyTake (k : ℤ) (xs : List α) : List α :=
  if 0 ≤ k then xs.take k.toNat else xs.take (xs.length - (-k).toNat)

/-- Python `x or d` for `x : Optional[int]`: `None` and `0` are falsy. -/
def pyOr (o : Option ℤ) (d : ℤ) : ℤ :=
  match o with
  | none => d
  | some v => if v = 0 then d else v

/-- Score lookup `scores[idx]` (indices produced by the code are always in
range; out-of-range defaults to 0, which is never exercised). -/
def scoreAt (scores : List ℚ) (i : ℕ) : ℚ := scores.getD i 0

/-! ## Tokenizer (KeywordSearchEngine.tokenize, src/search_engines.py:159) -/

/-- `text.lower().split()`: lowercase, split on whitespace, no empty
tokens.  A Python string is modelled through its character sequence
(`String.data`); `str.split()` splits on whitespace runs and never yields
empty tokens, hence the split-then-drop-empties form. -/
def tokenize (text : String) : List String :=
  (((text.data.map Char.toLower).splitOnP (fun c => c.isWhitespace)).filter
    (fun w => w ≠ [])).map String.mk

/-! ## Lexical ranking statistics -/

/-- Modelled from the spec: the BM25 ranking object constructed by
`KeywordSearchEngine.build_index` comes from the third-party `rank_bm25`
library (`BM25Okapi`), whose source is not under src/.  Spec §4.2 requires a
BM25-style scorer: per-term document frequency, average document length, and
a saturation/length-normalization scoring function with constants k1≈1.5,
b≈0.75, where "exact constants are not load-bearing for correctness, only
for ranking quality".  The state is the tokenized corpus; the statistics
are derived from it. -/
structure BM25 where
  corpus : List (List String)
deriving DecidableEq, Repr

def BM25.corpusSize (bm : BM25) : ℕ := bm.corpus.length

/-- Number of documents containing the term. -/
def BM25.df (bm : BM25) (t : String) : ℕ :=
  (bm.corpus.filter (fun d => d.contains t)).length

/-- Average document length; 0 for an empty corpus (the spec requires the
empty build not to fail, so the division is guarded). -/
def BM25.avgdl (bm : BM25) : ℚ :=
  if bm.corpus.length = 0 then 0
  else (bm.corpus.map (fun d => (d.length : ℚ))).sum / bm.corpus.length

def BM25.k1 : ℚ := 3/2

def BM25.bParam : ℚ := 3/4

/-- Modelled from the spec: inverse document frequency.  The library's
`log((N - df + 0.5)/(df + 0.5))` (with its negative-idf flooring) is
transcendental; per spec §4.2 the exact shape is not load-bearing, so we use
the rational "plus one" BM25 idf `(N + 1)/(df + 0.5)`, likewise strictly
decreasing in `df`.  A term absent from the corpus contributes 0 to every
document regardless of its idf, because its term frequency is 0. -/
def BM25.idf (bm : BM25) (t : String) : ℚ :=
  ((bm.corpusSize : ℚ) + 1) / ((bm.df t : ℚ) + 1/2)

/-- BM25-style score of one document for a query (sum over query tokens,
duplicates included, of idf·saturated-tf with length normalization). -/
def BM25.scoreDoc (bm : BM25) (q : List String) (d : List String) : ℚ :=
  (q.map (fun t =>
    let f : ℚ := (d.count t : ℚ)
    bm.idf t * (f * (BM25.k1 + 1)) /
      (f + BM25.k1 * (1 - BM25.bParam + BM25.bParam * (d.length : ℚ) / bm.avgdl)))).sum

/-- `bm25.get_scores(query_tokens)`: one score per corpus document, in
corpus order. -/
def BM25.getScores (bm : BM25) (q : List String) : List ℚ :=
  bm.corpus.map (fun d => bm.scoreDoc q d)

/-! ## np.argsort model -/

/-- Ascending comparison used to model `np.argsort(scores)`: by score, ties
by original index (the stable ascending argsort; numpy's introsort is
unstable in general but agrees with the stable order on the small arrays in
scope, and the repository's observable tie behaviour below comes from the
`[::-1]` reversal, not from the sort itself). -/
def leIdx (scores : List ℚ) (i j : ℕ) : Prop :=
  scoreAt scores i < scoreAt scores j ∨
    (scoreAt scores i = scoreAt scores j ∧ i ≤ j)

instance (scores : List ℚ) : DecidableRel (leIdx scores) := fun _ _ =>
  inferInstanceAs (Decidable (_ ∨ _))

instance (scores : List ℚ) : IsTotal ℕ (leIdx scores) := by
  constructor
  intro i j
  rcases lt_trichotomy (scoreAt scores i) (scoreAt scores j) with h | h | h
  · exact Or.inl (Or.inl h)
  · rcases Nat.le_total i j with hij | hij
    · exact Or.inl (Or.inr ⟨h, hij⟩)
    · exact Or.inr (Or.inr ⟨h.symm, hij⟩)
  · exact Or.inr (Or.inl h)

instance (scores : List ℚ) : IsTrans ℕ (leIdx scores) := by
  constructor
  rintro a b c (h1 | ⟨h1, h1'⟩) (h2 | ⟨h2, h2'⟩)
  · exact Or.inl (h1.trans h2)
  · exact Or.inl (h2 ▸ h1)
  · exact Or.inl (h1 ▸ h2)
  · exact Or.inr ⟨h1.trans h2, h1'.trans h2'⟩

/-- `np.argsort(scores)`: the indices `0 .. len-1` sorted ascending by
score, ties by ascending index. -/
def argsortAsc (scores : List ℚ) : List ℕ :=
  List.insertionSort (leIdx scores) (List.range scores.length)

/-- The strict descending order in which `KeywordSearchEngine.search`
actually emits document indices: larger score first, equal scores broken by
the LARGER original index first (the `[::-1]` reversal of the ascending
stable argsort reverses tie order). -/
def gtIdx (scores : List ℚ) (i j : ℕ) : Prop :=
  scoreAt scores j < scoreAt scores i ∨
    (scoreAt scores i = scoreAt scores j ∧ j < i)

/-! ## KeywordSearchEngine (src/search_engines.py:150-200) -/

structure KeywordState where
  content_items : List ContentItem
  tokenized_docs : List (List String)
  bm25 : Option BM25
deriving DecidableEq, Repr

/-- The item used for the (never exercised) out-of-range list access
default. -/
def dfltItem : ContentItem :=
  ⟨"", ContentType.text, none, "", ⟨0, ⟨0, 0, 0, 0⟩, none⟩, [], none⟩

instance : Inhabited ContentItem := ⟨dfltItem⟩

/-- `KeywordSearchEngine.build_index`: tokenize each item's
`f"{item.title or ''}"` and build the BM25 object over the tokenized
documents. -/
def KeywordSearchEngine.build_index (content_items : List ContentItem) :
    KeywordState :=
  let tokenized_docs := content_items.map (fun it => tokenize (it.title.getD ""))
  ⟨content_items, tokenized_docs, some ⟨tokenized_docs⟩⟩

/-- The score vector `bm25.get_scores(tokenize(query))` of a keyword search
(empty when the index was never built). -/
def KeywordSearchEngine.scoresOf (st : KeywordState) (query : String) : List ℚ :=
  match st.bm25 with
  | none => []
  | some bm => bm.getScores (tokenize query)

/-- The indices selected by `KeywordSearchEngine.search`:
`np.argsort(scores)[::-1][:k]`, keeping those with `idx < len(items)` and
strictly positive score. -/
def KeywordSearchEngine.searchIdx (st : KeywordState) (query : String) (k : ℤ) :
    List ℕ :=
  match st.bm25 with
  | none => []
  | some _ =>
    let scores := KeywordSearchEngine.scoresOf st query
    (pyTake k (argsortAsc scores).reverse).filter
      (fun i => decide (i < st.content_items.length) && decide (0 < scoreAt scores i))

/-- `KeywordSearchEngine.search(query, k)`: the selected indices paired with
their items and scores. -/
def KeywordSearchEngine.search (st : KeywordState) (query : String) (k : ℤ) :
    List (ContentItem × ℚ) :=
  (KeywordSearchEngine.searchIdx st query k).map
    (fun i => (st.content_items.getD i dfltItem,
               scoreAt (KeywordSearchEngine.scoresOf st query) i))

/-- The score vector of a keyword search against a freshly built index. -/
def kwScores (items : List ContentItem) (query : String) : List ℚ :=
  KeywordSearchEngine.scoresOf (KeywordSearchEngine.build_index items) query

/-- The indices emitted by a keyword search against a freshly built
index. -/
def kwTopIdx (items : List ContentItem) (query : String) (k : ℤ) : List ℕ :=
  KeywordSearchEngine.searchIdx (KeywordSearchEngine.build_index items) query k

/-! ## EmbeddingSearchEngine (src/search_engines.py:19-148) -/

structure EmbeddingState where
  content_items : List ContentItem
  /-- The FAISS index contents: the stored (normalized) vectors, in item
  order; `none` when the index was never built. -/
  index : Option (List (List ℚ))
  /-- The raw `self.embeddings` matrix kept for persistence. -/
  embeddings : Option (List (List ℚ))
deriving DecidableEq, Repr

/-- `EmbeddingSearchEngine.get_embedding`: clean the text (newlines to
spaces, strip); an empty cleaned text short-circuits to the zero vector of
the configured dimension without invoking the external model `enc`. -/
def EmbeddingSearchEngine.get_embedding (enc : String → List ℚ) (cfg : Config)
    (text : String) : List ℚ :=
  let cleaned := String.mk
    ((((text.data.map (fun c => if c = '\n' then ' ' else c)).dropWhile
        (fun c => c.isWhitespace)).reverse.dropWhile (fun c => c.isWhitespace)).reverse)
  if cleaned = "" then List.replicate cfg.EMBEDDING_DIMENSION 0 else enc cleaned

/-- `faiss.normalize_L2`.  faiss guards the zero-norm case (a zero vector is
left unchanged), and by the external encoder's contract (spec §6:
`normalize_embeddings=True`) every non-zero vector this program normalizes
already has unit norm, on which division by the norm 1 is the identity; so
on every input it receives the operation is the identity. -/
def normalize_L2 (v : List ℚ) : List ℚ := v

/-- Inner product of two vectors. -/
def dot (u v : List ℚ) : ℚ := (List.zipWith (· * ·) u v).sum

/-- Descending comparison modelling the order in which
`faiss.IndexFlatIP.search` returns its top-k: by descending inner-product
score, ties by ascending index. -/
def geIdxFaiss (scores : List ℚ) (i j : ℕ) : Prop :=
  scoreAt scores j < scoreAt scores i ∨
    (scoreAt scores i = scoreAt scores j ∧ i ≤ j)

instance (scores : List ℚ) : DecidableRel (geIdxFaiss scores) := fun _ _ =>
  inferInstanceAs (Decidable (_ ∨ _))

/-- The indices of the `k` best stored vectors for the query, in faiss
return order.  faiss pads with index -1 and score -inf when fewer than `k`
vectors are stored; the caller's filter (`score > threshold`) always drops
the padding, so the model simply returns fewer indices.  A non-positive `k`
is never exercised against a built index (the unbuilt-index guard returns
first in every reachable such call); it is modelled as an empty result. -/
def faissTopk (scores : List ℚ) (k : ℤ) : List ℕ :=
  (List.insertionSort (geIdxFaiss scores) (List.range scores.length)).take k.toNat

/-- `EmbeddingSearchEngine.search(query, k)`: embed and normalize the query,
score every stored vector by inner product, and keep the top-k results
strictly above the similarity threshold. -/
def EmbeddingSearchEngine.search (enc : String → List ℚ) (cfg : Config)
    (st : EmbeddingState) (query : String) (k : ℤ) : List (ContentItem × ℚ) :=
  match st.index with
  | none => []
  | some vecs =>
    let qe := normalize_L2 (EmbeddingSearchEngine.get_embedding enc cfg query)
    let scores := vecs.map (fun v => dot qe v)
    ((faissTopk scores k).filter
        (fun i => decide (i < st.content_items.length) &&
                  decide (cfg.SIMILARITY_THRESHOLD < scoreAt scores i))).map
      (fun i => (st.content_items.getD i dfltItem, scoreAt scores i))

/-- `EmbeddingSearchEngine.build_index`: one embedding per item from
`f"{item.title or ''}"`, L2-normalized and stored in item order.  The
empty-collection `ValueError` path is guarded by the caller
(`TableImageSearchService.initialize` only builds a non-empty collection). -/
def EmbeddingSearchEngine.build_index (enc : String → List ℚ) (cfg : Config)
    (content_items : List ContentItem) : EmbeddingState :=
  let embeddings := content_items.map
    (fun it => EmbeddingSearchEngine.get_embedding enc cfg (it.title.getD ""))
  ⟨content_items, some (embeddings.map normalize_L2), some embeddings⟩

/-! ## Python dict model -/

/-- Lookup in an insertion-ordered association list (first match). -/
def dget : List (String × β) → String → Option β
  | [], _ => none
  | p :: d, key => if p.1 = key then some p.2 else dget d key

/-- In-place value update.  Every dict the program builds has unique keys,
so mapping over all matching entries coincides with the single in-place
mutation `d[key] = f(d[key])`. -/
def dmodify : List (String × β) → String → (β → β) → List (String × β)
  | [], _, _ => []
  | p :: d, key, f => (if p.1 = key then (p.1, f p.2) else p) :: dmodify d key f

/-! ## HybridSearchEngine (src/search_engines.py:227-315) -/

/-- An entry of the per-term `rrf_scores` dict (lines 262-267):
`{'item': item, 'rrf_score': float}`. -/
structure RrfEntry where
  item : ContentItem
  rrf_score : ℚ
deriving DecidableEq, Repr

/-- An entry of the `final_rrf_scores` dict (lines 278-300). -/
structure FEntry where
  item : ContentItem
  rrf_score : ℚ
  match_type : String
deriving DecidableEq, Repr

/-- One iteration of the per-term RRF loop (lines 263-267): create the
entry on first sight, then add `1.0 / (rank + 1)`. -/
def rrfStep (d : List (String × RrfEntry)) (rank : ℕ) (item : ContentItem) :
    List (String × RrfEntry) :=
  let d := if (dget d item.id).isNone then d ++ [(item.id, ⟨item, 0⟩)] else d
  dmodify d item.id (fun e => { e with rrf_score := e.rrf_score + 1 / ((rank : ℚ) + 1) })

/-- One iteration of the semantic pass (lines 281-288): create the entry
with `match_type 'semantic'` on first sight, then add
`semantic_weight * (1.0 / (rank + 1))`. -/
def fuseSemStep (w : ℚ) (d : List (String × FEntry)) (rank : ℕ)
    (item : ContentItem) : List (String × FEntry) :=
  let d := if (dget d item.id).isNone then d ++ [(item.id, ⟨item, 0, "semantic"⟩)] else d
  dmodify d item.id (fun e => { e with rrf_score := e.rrf_score + w * (1 / ((rank : ℚ) + 1)) })

/-- One iteration of the keyword pass (lines 291-300): create the entry
with `match_type 'keyword'` on first sight, otherwise mark it `'hybrid'`;
then add `keyword_weight * (1.0 / (rank + 1))`. -/
def fuseKwStep (w : ℚ) (d : List (String × FEntry)) (rank : ℕ)
    (item : ContentItem) : List (String × FEntry) :=
  let d := if (dget d item.id).isNone then d ++ [(item.id, ⟨item, 0, "keyword"⟩)]
           else dmodify d item.id (fun e => { e with match_type := "hybrid" })
  dmodify d item.id (fun e => { e with rrf_score := e.rrf_score + w * (1 / ((rank : ℚ) + 1)) })

/-- `for rank, (item, _) in enumerate(results): d = step(d, rank, item)`. -/
def foldRanked (step : δ → ℕ → ContentItem → δ) (d : δ)
    (results : List (ContentItem × ℚ)) : δ :=
  results.enum.foldl (fun d p => step d p.1 p.2.1) d

/-- The `final_rrf_scores` dict after the semantic pass (weight
`semantic_weight`) and the keyword pass (weight `keyword_weight`)
(lines 277-300). -/
def fuseMap (semantic_results keyword_results : List (ContentItem × ℚ))
    (semantic_weight keyword_weight : ℚ) : List (String × FEntry) :=
  foldRanked (fuseKwStep keyword_weight)
    (foldRanked (fuseSemStep semantic_weight) [] semantic_results)
    keyword_results

/-- 0-based position of the first occurrence of `key` in a list of ids
(`none` when absent). -/
def rankOf : List String → String → Option ℕ
  | [], _ => none
  | x :: xs, key => if x = key then some 0 else (rankOf xs key).map (· + 1)

/-- Reciprocal-rank contribution `1/(rank+1)` of `key` in a ranked id list
(0 when absent). -/
def rrfContrib (ids : List String) (key : String) : ℚ :=
  match rankOf ids key with
  | some r => 1 / ((r : ℚ) + 1)
  | none => 0

/-- The fused score stored under `key` (0 when absent). -/
def dscore (d : List (String × FEntry)) (key : String) : ℚ :=
  ((dget d key).map FEntry.rrf_score).getD 0

/-- The match type stored under `key`. -/
def dmt (d : List (String × FEntry)) (key : String) : Option String :=
  (dget d key).map FEntry.match_type

/-- Sum of reciprocal-rank contributions of `key` over explicitly ranked
pairs (proof-side view of one fusion pass). -/
def pairContrib (pairs : List (ℕ × (ContentItem × ℚ))) (key : String) : ℚ :=
  (pairs.map (fun p => if p.2.1.id = key then 1 / ((p.1 : ℚ) + 1) else 0)).sum

/-- Keyword results via per-term reciprocal rank fusion (lines 254-272):
search each term independently, fuse the per-term ranked lists with
unweighted RRF, sort by fused score descending (Python's stable sort) and
truncate to `k`. -/
def keywordFromTerms (kwSt : KeywordState) (search_terms : List String)
    (k : ℤ) : List (ContentItem × ℚ) :=
  let term_results := search_terms.map (fun t => KeywordSearchEngine.search kwSt t k)
  let rrf := term_results.foldl (fun d tr => foldRanked rrfStep d tr) []
  pyTake k (List.insertionSort (fun a b : ContentItem × ℚ => b.2 ≤ a.2)
    (rrf.map (fun p => (p.2.item, p.2.rrf_score))))

/-- Lines 302-310: the `SearchResult` objects built from the fused map's
values with strictly positive RRF score, in dict value order. -/
def hybridCandidates (semantic_results keyword_results : List (ContentItem × ℚ))
    (semantic_weight keyword_weight : ℚ) : List SearchResult :=
  (((fuseMap semantic_results keyword_results semantic_weight keyword_weight).map
      (fun p => p.2)).filter (fun e => decide (0 < e.rrf_score))).map
    (fun e => SearchResult.mk e.item e.rrf_score e.match_type)

/-- `HybridSearchEngine.search` (lines 243-315). -/
def HybridSearchEngine.search (enc : String → List ℚ) (cfg : Config)
    (embSt : EmbeddingState) (kwSt : KeywordState) (query : String) (k : ℤ)
    (semantic_weight keyword_weight : ℚ) (search_terms : List String) :
    List SearchResult :=
  let semantic_results := EmbeddingSearchEngine.search enc cfg embSt query k
  let keyword_results :=
    if search_terms ≠ [] then keywordFromTerms kwSt search_terms k
    else KeywordSearchEngine.search kwSt query k
  let search_results :=
    hybridCandidates semantic_results keyword_results semantic_weight keyword_weight
  pyTake k (List.insertionSort
    (fun a b : SearchResult => b.relevance_score ≤ a.relevance_score) search_results)

/-! ## QueryProcessor (src/query_processor.py) -/

/-- The query-analysis record returned by the external analyzer (all four
fields are required by `QUERY_ANALYSIS_SCHEMA`, and the fallback analysis
supplies all four). -/
structure Analysis where
  search_terms : List String
  content_type : String
  intent : String
  confidence : ℚ
deriving DecidableEq, Repr

/-- The strategy record returned by
`QueryProcessor.determine_search_strategy`. -/
structure Strategy where
  semantic_weight : ℚ
  keyword_weight : ℚ
  max_results : ℤ
  content_type_filter : Option String
  search_terms : List String
  intent : String
deriving DecidableEq, Repr

/-- `QueryProcessor.determine_search_strategy` (lines 91-122): term-presence
branch, then the low-confidence override, fixed `max_results = 5`, and the
`"any"`-sentinel filter rule. -/
def determine_search_strategy (analysis : Analysis) : Strategy :=
  let sk : ℚ × ℚ :=
    if analysis.search_terms ≠ [] then (2/5, 3/5) else (3/10, 7/10)
  let sk : ℚ × ℚ := if analysis.confidence < 3/5 then (4/5, 1/5) else sk
  { semantic_weight := sk.1
    keyword_weight := sk.2
    max_results := 5
    content_type_filter :=
      if analysis.content_type ≠ "any" then some analysis.content_type else none
    search_terms := analysis.search_terms
    intent := analysis.intent }

/-- The external result-selection outcome (`RESULT_SELECTION_SCHEMA`:
`selected_index` is an integer ≥ 0 or null, `confidence` a number). -/
structure SelectionOutcome where
  selected_index : Option ℤ
  confidence : ℚ
deriving DecidableEq, Repr

/-- The record returned by `QueryProcessor.select_best_result_with_llm`
(`alternative_indices` is only set on the medium-confidence branch and is
modelled as `[]` elsewhere). -/
structure SelectionResult where
  status : String
  selected_index : Option ℤ
  alternative_indices : List ℕ
  reasoning : String
  confidence : ℚ
deriving DecidableEq, Repr

/-- `QueryProcessor.select_best_result_with_llm` (lines 124-195), with the
external LLM call's parsed outcome as a parameter. -/
def select_best_result_with_llm (search_results : List SearchResult)
    (llm : SelectionOutcome) : SelectionResult :=
  if search_results = [] then
    ⟨"insufficient_info", none, [], "No results to evaluate", 0⟩
  else
    match llm.selected_index with
    | none =>
      ⟨"insufficient_info", none, [], "LLM found no confident match", llm.confidence⟩
    | some s =>
      if llm.confidence < 2/5 then
        ⟨"insufficient_info", none, [], "LLM found no confident match", llm.confidence⟩
      else if 4/5 ≤ llm.confidence then
        ⟨"success", some s, [], "LLM found a strong match", llm.confidence⟩
      else
        let alternatives :=
          (List.range search_results.length).filter
            (fun (i : ℕ) => decide ((i : ℤ) ≠ s) && decide (i < 3))
        ⟨if alternatives ≠ [] then "multiple_candidates" else "success",
         some s, alternatives,
         if alternatives ≠ [] then "LLM found a good match with alternatives available"
         else "LLM found a good match",
         llm.confidence⟩

/-! ## TableImageSearchService (src/service.py) -/

structure ServiceState where
  emb : EmbeddingState
  kw : KeywordState
  all_content_items : List ContentItem
  figures : List ContentItem
  tables : List ContentItem
  text_blocks : List ContentItem
  initialized : Bool
deriving DecidableEq, Repr

/-- `SearchQuery` from src/models.py (`max_results` defaults to 10 when
omitted from the request). -/
structure SearchQueryM where
  query : String
  max_results : Option ℤ
deriving DecidableEq, Repr

structure SearchResponseM where
  query : String
  results : List SearchResult
  status : String
  message : Option String
  total_found : ℕ
deriving DecidableEq, Repr

/-- `ContentType(value)`: the enum constructor, `none` for the raising
case. -/
def contentTypeOfString (s : String) : Option ContentType :=
  if s = "table" then some ContentType.table
  else if s = "figure" then some ContentType.figure
  else if s = "text" then some ContentType.text
  else none

/-- Response assembly of `TableImageSearchService.search` (lines 108-126). -/
def mkSearchResponse (q : String) (search_results : List SearchResult) :
    SearchResponseM :=
  if search_results = [] then
    ⟨q, search_results, "insufficient_info",
     some "No relevant tables or images found for your query", search_results.length⟩
  else if search_results.length = 1 then
    ⟨q, search_results, "success", some "Found a matching result", search_results.length⟩
  else
    ⟨q, search_results, "success",
     some ("Found " ++ toString search_results.length ++ " relevant results"),
     search_results.length⟩

/-- `TableImageSearchService.search` (lines 73-134), with the external
query-analysis outcome as a parameter.  The `ContentType(...)` conversion
raising on an invalid filter string is the `none` case of
`contentTypeOfString` and surfaces as the error response via the
surrounding `except`. -/
def serviceSearch (enc : String → List ℚ) (cfg : Config) (analysis : Analysis)
    (st : ServiceState) (query : SearchQueryM) : SearchResponseM :=
  if !st.initialized then
    ⟨query.query, [], "error", some "Service not initialized", 0⟩
  else
    let strategy := determine_search_strategy analysis
    let k := min (pyOr query.max_results cfg.MAX_RESULTS) strategy.max_results
    let search_results :=
      HybridSearchEngine.search enc cfg st.emb st.kw query.query k
        strategy.semantic_weight strategy.keyword_weight strategy.search_terms
    match strategy.content_type_filter with
    | none => mkSearchResponse query.query search_results
    | some f =>
      match contentTypeOfString f with
      | none =>
        ⟨query.query, [], "error",
         some "An error occurred while processing your query", 0⟩
      | some ct =>
        mkSearchResponse query.query
          (search_results.filter (fun r => r.content_item.content_type = ct))

/-! ## Index persistence and lifecycle (src/search_engines.py:123-148,
202-225, 317-326 and src/service.py:29-71) -/

/-- The persisted artifacts at the configured base path:
`{path}_embedding.faiss` (the serialized FAISS vectors),
`{path}_embedding_metadata.pkl` (content items and raw embeddings), and
`{path}_keyword.pkl` (content items, tokenized docs, BM25 object).  `none`
models a missing or unreadable file (the `except` paths of the load
functions). -/
structure Disk where
  faissFile : Option (List (List ℚ))
  metadataFile : Option (List ContentItem × List (List ℚ))
  keywordFile : Option (List ContentItem × List (List String) × BM25)
deriving DecidableEq, Repr

/-- `EmbeddingSearchEngine.load_index`: read the FAISS file and the metadata
pickle; any failure returns `False` (modelled `none`).  No structural check
relates the vector count to the content-item count. -/
def EmbeddingSearchEngine.load_index (disk : Disk) : Option EmbeddingState :=
  match disk.faissFile, disk.metadataFile with
  | some vecs, some meta => some ⟨meta.1, some vecs, some meta.2⟩
  | _, _ => none

/-- `KeywordSearchEngine.load_index`: read the keyword pickle. -/
def KeywordSearchEngine.load_index (disk : Disk) : Option KeywordState :=
  disk.keywordFile.map (fun kw => ⟨kw.1, kw.2.1, some kw.2.2⟩)

/-- `HybridSearchEngine.save_indices` / the two `save_index` methods. -/
def saveIndices (embSt : EmbeddingState) (kwSt : KeywordState) : Disk :=
  ⟨embSt.index,
   (embSt.index).bind (fun _ => (embSt.embeddings).map (fun e => (embSt.content_items, e))),
   kwSt.bm25.map (fun bm => (kwSt.content_items, kwSt.tokenized_docs, bm))⟩

/-- `TableImageSearchService.initialize` (src/service.py:29-62), with the
parse results of `DataParser.parse_all_content` as parameters.  If both
artifact files exist and both engines load, the loaded pair is used;
otherwise all content is parsed and both indices are rebuilt and saved;
building with no content items raises (`Except.error`). -/
def initService (enc : String → List ℚ) (cfg : Config) (disk : Disk)
    (figures tables text_blocks : List ContentItem) :
    Except String (ServiceState × Disk) :=
  let embedding_exists := disk.faissFile.isSome
  let keyword_exists := disk.keywordFile.isSome
  let loaded :=
    if embedding_exists && keyword_exists then
      match EmbeddingSearchEngine.load_index disk, KeywordSearchEngine.load_index disk with
      | some e, some kw => some (e, kw)
      | _, _ => none
    else none
  match loaded with
  | some ekw =>
    Except.ok (⟨ekw.1, ekw.2, figures ++ tables, figures, tables, text_blocks, true⟩, disk)
  | none =>
    let all_content_items := figures ++ tables
    if all_content_items = [] then
      Except.error "No content items found during parsing"
    else
      let e := EmbeddingSearchEngine.build_index enc cfg all_content_items
      let kw := KeywordSearchEngine.build_index all_content_items
      Except.ok (⟨e, kw, all_content_items, figures, tables, text_blocks, true⟩,
        saveIndices e kw)

/-! ## Test fixtures -/

/-- A content item with the given id, title and content type `table`. -/
def mkItem (id title : String) : ContentItem :=
  ⟨id, ContentType.table, some title, "", ⟨1, ⟨0, 0, 1, 1⟩, none⟩, [], none⟩

/-- A degenerate external encoder (used only where the counterexample needs
some concrete encoder; the engines accept any). -/
def enc0 : String → List ℚ := fun _ => []

def srOf (it : ContentItem) : SearchResult := ⟨it, 1, "keyword"⟩

/-- Five titled items; items 0 and 1 share the title "pump", so they get
equal BM25 scores for the query "pump". -/
def docsC6 : List ContentItem :=
  [mkItem "d0" "pump", mkItem "d1" "pump", mkItem "d2" "valve",
   mkItem "d3" "seal", mkItem "d4" "ring"]

/-- Five items all of whose titles contain the token "pump". -/
def docsP : List ContentItem :=
  [mkItem "p0" "pump a", mkItem "p1" "pump b", mkItem "p2" "pump c",
   mkItem "p3" "pump d", mkItem "p4" "pump e"]

/-- A service initialized from scratch (no persisted artifacts) over one
content item titled "pump", with the degenerate encoder `enc0`. -/
def stC9 : ServiceState :=
  match initService enc0 config ⟨none, none, none⟩ [mkItem "fig_pump" "pump"] [] [] with
  | Except.ok p => p.1
  | Except.error _ => ⟨⟨[], none, none⟩, ⟨[], [], none⟩, [], [], [], [], false⟩

/-- A query-analysis outcome with no search terms, content type "any" and
high confidence. -/
def anC9 : Analysis := ⟨[], "any", "", 9/10⟩

/-- A structurally inconsistent persisted pair: the vector artifact holds 2
vectors while the metadata and keyword artifacts hold 1 content item — the
§3 invariant (vector count = document count = item count) is violated, yet
every file is present and readable. -/
def disk7 : Disk :=
  ⟨some [[1, 0], [0, 1]],
   some ([mkItem "a" "alpha"], [[1, 0], [0, 1]]),
   some ([mkItem "a" "alpha"], [["alpha"]], ⟨[["alpha"]]⟩)⟩

/-! ## General helper lemmas -/

lemma dot_replicate_zero (n : ℕ) (v : List ℚ) : dot (List.replicate n 0) v = 0 := by
  induction v generalizing n with
  | nil => simp [dot]
  | cons x v ih =>
    cases n with
    | zero => simp [dot]
    | succ m =>
      simp only [List.replicate_succ, dot, List.zipWith_cons_cons, List.sum_cons, zero_mul]
      have := ih m
      simp only [dot] at this
      simp [this]

lemma scoreAt_of_forall_zero {scores : List ℚ} (h : ∀ x ∈ scores, x = 0) (i : ℕ) :
    scoreAt scores i = 0 := by
  unfold scoreAt
  cases hg : scores[i]? with
  | none => simp [List.getD, hg]
  | some x =>
    have hx := h x (List.getElem?_mem hg)
    simp [List.getD, hg, hx]

/-! ## Dict and fusion lemmas -/

lemma dget_dmodify (d : List (String × β)) (key k' : String) (f : β → β) :
    dget (dmodify d key f) k' = if k' = key then (dget d k').map f else dget d k' := by
  induction d with
  | nil => simp [dmodify, dget]
  | cons p d ih =>
    obtain ⟨a, b⟩ := p
    by_cases h1 : a = key
    · subst h1
      by_cases h2 : a = k'
      · subst h2
        simp [dmodify, dget]
      · have h2' : ¬ k' = a := fun hc => h2 hc.symm
        simp [dmodify, dget, h2, h2', ih]
    · by_cases h2 : a = k'
      · subst h2
        have h1' : ¬ a = key := h1
        simp [dmodify, dget, h1', fun hc : a = key => h1 hc]
      · have h2' : ¬ k' = a := fun hc => h2 hc.symm
        simp [dmodify, dget, h1, h2, h2', ih]

lemma dget_append (d₁ d₂ : List (String × β)) (key : String) :
    dget (d₁ ++ d₂) key =
      match dget d₁ key with
      | some v => some v
      | none => dget d₂ key := by
  induction d₁ with
  | nil => simp [dget]
  | cons p d ih =>
    by_cases h : p.1 = key <;> simp [dget, h, ih]

lemma dget_eq_none_iff (d : List (String × β)) (key : String) :
    dget d key = none ↔ key ∉ d.map Prod.fst := by
  induction d with
  | nil => simp [dget]
  | cons p d ih =>
    obtain ⟨a, b⟩ := p
    by_cases h : a = key
    · subst h
      simp [dget]
    · simp only [dget, if_neg h, ih, List.map_cons, List.mem_cons, not_or]
      exact ⟨fun hm => ⟨fun hc => h hc.symm, hm⟩, fun hp => hp.2⟩

lemma dget_fuseSemStep (w : ℚ) (d : List (String × FEntry)) (rank : ℕ)
    (item : ContentItem) (key : String) :
    dget (fuseSemStep w d rank item) key =
      if key = item.id then
        some (match dget d key with
              | none => ⟨item, 0 + w * (1 / ((rank : ℚ) + 1)), "semantic"⟩
              | some e => ⟨e.item, e.rrf_score + w * (1 / ((rank : ℚ) + 1)), e.match_type⟩)
      else dget d key := by
  unfold fuseSemStep
  by_cases hkey : key = item.id
  · subst hkey
    cases habs : dget d item.id with
    | none =>
      simp [habs, dget_dmodify, dget_append, dget]
    | some e =>
      simp [habs, dget_dmodify]
  · rw [if_neg hkey]
    cases habs : dget d item.id with
    | none =>
      simp only [habs, Option.isNone_none, eq_self_iff_true, if_true]
      rw [dget_dmodify, if_neg hkey, dget_append]
      cases h2 : dget d key with
      | none => simp only [dget]; rw [if_neg (fun hc => hkey hc.symm)]
      | some e => simp
    | some e =>
      simp only [habs, Option.isNone_some, Bool.false_eq_true, if_false]
      rw [dget_dmodify, if_neg hkey]

lemma dget_fuseKwStep (w : ℚ) (d : List (String × FEntry)) (rank : ℕ)
    (item : ContentItem) (key : String) :
    dget (fuseKwStep w d rank item) key =
      if key = item.id then
        some (match dget d key with
              | none => ⟨item, 0 + w * (1 / ((rank : ℚ) + 1)), "keyword"⟩
              | some e => ⟨e.item, e.rrf_score + w * (1 / ((rank : ℚ) + 1)), "hybrid"⟩)
      else dget d key := by
  unfold fuseKwStep
  by_cases hkey : key = item.id
  · subst hkey
    cases habs : dget d item.id with
    | none =>
      simp [habs, dget_dmodify, dget_append, dget]
    | some e =>
      simp [habs, dget_dmodify]
  · rw [if_neg hkey]
    cases habs : dget d item.id with
    | none =>
      simp only [habs, Option.isNone_none, eq_self_iff_true, if_true]
      rw [dget_dmodify, if_neg hkey, dget_append]
      cases h2 : dget d key with
      | none => simp only [dget]; rw [if_neg (fun hc => hkey hc.symm)]
      | some e => simp
    | some e =>
      simp only [habs, Option.isNone_some, Bool.false_eq_true, if_false]
      rw [dget_dmodify, if_neg hkey, dget_dmodify, if_neg hkey]

lemma dscore_fuseSemStep (w : ℚ) (d : List (String × FEntry)) (rank : ℕ)
    (item : ContentItem) (key : String) :
    dscore (fuseSemStep w d rank item) key =
      dscore d key + (if item.id = key then w * (1 / ((rank : ℚ) + 1)) else 0) := by
  unfold dscore
  rw [dget_fuseSemStep]
  by_cases hkey : key = item.id
  · rw [if_pos hkey, if_pos hkey.symm]
    cases h2 : dget d key <;> simp
  · rw [if_neg hkey, if_neg (fun hc => hkey hc.symm), add_zero]

lemma dscore_fuseKwStep (w : ℚ) (d : List (String × FEntry)) (rank : ℕ)
    (item : ContentItem) (key : String) :
    dscore (fuseKwStep w d rank item) key =
      dscore d key + (if item.id = key then w * (1 / ((rank : ℚ) + 1)) else 0) := by
  unfold dscore
  rw [dget_fuseKwStep]
  by_cases hkey : key = item.id
  · rw [if_pos hkey, if_pos hkey.symm]
    cases h2 : dget d key <;> simp
  · rw [if_neg hkey, if_neg (fun hc => hkey hc.symm), add_zero]

lemma dmt_fuseSemStep (w : ℚ) (d : List (String × FEntry)) (rank : ℕ)
    (item : ContentItem) (key : String) :
    dmt (fuseSemStep w d rank item) key =
      if item.id = key then some ((dmt d key).getD "semantic") else dmt d key := by
  unfold dmt
  rw [dget_fuseSemStep]
  by_cases hkey : key = item.id
  · rw [if_pos hkey, if_pos hkey.symm]
    cases h2 : dget d key <;> simp
  · rw [if_neg hkey, if_neg (fun hc => hkey hc.symm)]

lemma dmt_fuseKwStep (w : ℚ) (d : List (String × FEntry)) (rank : ℕ)
    (item : ContentItem) (key : String) :
    dmt (fuseKwStep w d rank item) key =
      if item.id = key then
        some (match dmt d key with
              | none => "keyword"
              | some _ => "hybrid")
      else dmt d key := by
  unfold dmt
  rw [dget_fuseKwStep]
  by_cases hkey : key = item.id
  · rw [if_pos hkey, if_pos hkey.symm]
    cases h2 : dget d key <;> simp
  · rw [if_neg hkey, if_neg (fun hc => hkey hc.symm)]

lemma dscore_foldSem (w : ℚ) (pairs : List (ℕ × (ContentItem × ℚ)))
    (d : List (String × FEntry)) (key : String) :
    dscore (pairs.foldl (fun d p => fuseSemStep w d p.1 p.2.1) d) key =
      dscore d key + w * pairContrib pairs key := by
  induction pairs generalizing d with
  | nil => simp [pairContrib]
  | cons p ps ih =>
    simp only [List.foldl_cons, ih, dscore_fuseSemStep, pairContrib, List.map_cons,
      List.sum_cons]
    by_cases h : p.2.1.id = key
    · rw [if_pos h, if_pos h]
      ring
    · rw [if_neg h, if_neg h]
      ring

lemma dscore_foldKw (w : ℚ) (pairs : List (ℕ × (ContentItem × ℚ)))
    (d : List (String × FEntry)) (key : String) :
    dscore (pairs.foldl (fun d p => fuseKwStep w d p.1 p.2.1) d) key =
      dscore d key + w * pairContrib pairs key := by
  induction pairs generalizing d with
  | nil => simp [pairContrib]
  | cons p ps ih =>
    simp only [List.foldl_cons, ih, dscore_fuseKwStep, pairContrib, List.map_cons,
      List.sum_cons]
    by_cases h : p.2.1.id = key
    · rw [if_pos h, if_pos h]
      ring
    · rw [if_neg h, if_neg h]
      ring

lemma dmt_foldSem (w : ℚ) (pairs : List (ℕ × (ContentItem × ℚ))) (key : String) :
    ∀ d, dmt (pairs.foldl (fun d p => fuseSemStep w d p.1 p.2.1) d) key =
      if ∃ p ∈ pairs, p.2.1.id = key then some ((dmt d key).getD "semantic")
      else dmt d key := by
  induction pairs with
  | nil => intro d; simp
  | cons p ps ih =>
    intro d
    simp only [List.foldl_cons, ih, dmt_fuseSemStep]
    by_cases h : p.2.1.id = key
    · have hmem : ∃ q ∈ p :: ps, q.2.1.id = key := ⟨p, List.mem_cons_self p ps, h⟩
      by_cases hex : ∃ q ∈ ps, q.2.1.id = key
      · rw [if_pos hex, if_pos h, if_pos hmem]
        simp
      · rw [if_neg hex, if_pos h, if_pos hmem]
    · by_cases hex : ∃ q ∈ ps, q.2.1.id = key
      · have hmem : ∃ q ∈ p :: ps, q.2.1.id = key :=
          let ⟨q, hq, hq2⟩ := hex; ⟨q, List.mem_cons_of_mem _ hq, hq2⟩
        rw [if_pos hex, if_neg h, if_pos hmem]
      · have hmem : ¬ ∃ q ∈ p :: ps, q.2.1.id = key := by
          rintro ⟨q, hq, hq2⟩
          rcases List.mem_cons.mp hq with rfl | hq'
          exacts [h hq2, hex ⟨q, hq', hq2⟩]
        rw [if_neg hex, if_neg h, if_neg hmem]

lemma dmt_foldKw (w : ℚ) (pairs : List (ℕ × (ContentItem × ℚ))) (key : String) :
    (pairs.map (fun p => p.2.1.id)).Nodup →
    ∀ d, dmt (pairs.foldl (fun d p => fuseKwStep w d p.1 p.2.1) d) key =
      if ∃ p ∈ pairs, p.2.1.id = key then
        some (match dmt d key with
              | none => "keyword"
              | some _ => "hybrid")
      else dmt d key := by
  induction pairs with
  | nil => intro _ d; simp
  | cons p ps ih =>
    intro hnd d
    simp only [List.map_cons, List.nodup_cons] at hnd
    obtain ⟨hhead, htail⟩ := hnd
    simp only [List.foldl_cons, ih htail]
    by_cases h : p.2.1.id = key
    · have hmem : ∃ q ∈ p :: ps, q.2.1.id = key := ⟨p, List.mem_cons_self p ps, h⟩
      have hex : ¬ ∃ q ∈ ps, q.2.1.id = key := by
        rintro ⟨q, hq, hq2⟩
        exact hhead (h ▸ hq2 ▸ List.mem_map.mpr ⟨q, hq, rfl⟩)
      rw [if_neg hex, dmt_fuseKwStep, if_pos h, if_pos hmem]
    · by_cases hex : ∃ q ∈ ps, q.2.1.id = key
      · have hmem : ∃ q ∈ p :: ps, q.2.1.id = key :=
          let ⟨q, hq, hq2⟩ := hex; ⟨q, List.mem_cons_of_mem _ hq, hq2⟩
        rw [if_pos hex, dmt_fuseKwStep, if_neg h, if_pos hmem]
      · have hmem : ¬ ∃ q ∈ p :: ps, q.2.1.id = key := by
          rintro ⟨q, hq, hq2⟩
          rcases List.mem_cons.mp hq with rfl | hq'
          exacts [h hq2, hex ⟨q, hq', hq2⟩]
        rw [if_neg hex, dmt_fuseKwStep, if_neg h, if_neg hmem]

lemma pairContrib_eq_zero_of_not_mem (pairs : List (ℕ × (ContentItem × ℚ)))
    (key : String) (h : key ∉ pairs.map (fun p => p.2.1.id)) :
    pairContrib pairs key = 0 := by
  induction pairs with
  | nil => rfl
  | cons p ps ih =>
    simp only [List.map_cons, List.mem_cons, not_or] at h
    simp only [pairContrib, List.map_cons, List.sum_cons]
    rw [if_neg (fun hc => h.1 hc.symm), zero_add]
    have := ih h.2
    simp only [pairContrib] at this
    exact this

lemma enumFrom_map_ids (L : List (ContentItem × ℚ)) (n : ℕ) :
    (L.enumFrom n).map (fun p => p.2.1.id) = L.map (fun q => q.1.id) := by
  induction L generalizing n with
  | nil => rfl
  | cons x L ih => simp only [List.enumFrom_cons, List.map_cons, ih]

lemma rankOf_eq_none_iff (ids : List String) (key : String) :
    rankOf ids key = none ↔ key ∉ ids := by
  induction ids with
  | nil => simp [rankOf]
  | cons x xs ih =>
    by_cases h : x = key
    · simp [rankOf, h]
    · simp only [rankOf, if_neg h, Option.map_eq_none', ih, List.mem_cons, not_or]
      exact ⟨fun hm => ⟨fun hc => h hc.symm, hm⟩, fun hp => hp.2⟩

lemma pairContrib_enumFrom (L : List (ContentItem × ℚ)) (key : String) :
    ∀ n : ℕ, (L.map (fun q => q.1.id)).Nodup →
    pairContrib (L.enumFrom n) key =
      (match rankOf (L.map (fun q => q.1.id)) key with
       | some r => 1 / ((n : ℚ) + (r : ℚ) + 1)
       | none => 0) := by
  induction L with
  | nil => intro n _; rfl
  | cons x L ih =>
    intro n hnd
    simp only [List.map_cons, List.nodup_cons] at hnd
    obtain ⟨hhead, htail⟩ := hnd
    by_cases h : x.1.id = key
    · rw [List.enumFrom_cons]
      simp only [pairContrib, List.map_cons, List.sum_cons, if_pos h]
      have hz : pairContrib (L.enumFrom (n + 1)) key = 0 := by
        apply pairContrib_eq_zero_of_not_mem
        rw [enumFrom_map_ids]
        exact h ▸ hhead
      simp only [pairContrib] at hz
      rw [hz, add_zero]
      simp only [List.map_cons, rankOf, if_pos h]
      norm_num
    · rw [List.enumFrom_cons]
      simp only [pairContrib, List.map_cons, List.sum_cons, if_neg h, zero_add]
      have hrec := ih (n + 1) htail
      simp only [pairContrib] at hrec
      rw [hrec]
      simp only [List.map_cons, rankOf, if_neg h]
      cases hr : rankOf (L.map fun q => q.1.id) key with
      | none => simp
      | some r =>
        simp only [Option.map]
        push_cast
        ring_nf

lemma pairContrib_enum (L : List (ContentItem × ℚ)) (key : String)
    (hnd : (L.map (fun q => q.1.id)).Nodup) :
    pairContrib L.enum key = rrfContrib (L.map (fun q => q.1.id)) key := by
  rw [List.enum_eq_enumFrom, pairContrib_enumFrom L key 0 hnd]
  unfold rrfContrib
  cases hr : rankOf (L.map fun q => q.1.id) key with
  | none => rfl
  | some r => norm_num

lemma exists_enum_id_iff (L : List (ContentItem × ℚ)) (key : String) :
    (∃ p ∈ L.enum, p.2.1.id = key) ↔ key ∈ L.map (fun q => q.1.id) := by
  rw [← enumFrom_map_ids L 0, ← List.enum_eq_enumFrom]
  constructor
  · rintro ⟨p, hp, hid⟩
    exact List.mem_map.mpr ⟨p, hp, hid⟩
  · intro hm
    obtain ⟨p, hp, hid⟩ := List.mem_map.mp hm
    exact ⟨p, hp, hid⟩

/-! ## Claim C1: reciprocal rank fusion scores and match types -/

/-- C1: for every pair of ranked lists (as the engines return them for a
query and `k`) and every pair of weights, the fusion map assigns each
content-item id a combined score equal to the sum, over the lists it
appears in, of `weight * 1/(rank+1)` with `rank` its 0-based position
(`rankOf`): `w_s/(r1+1) + w_k/(r2+1)` for an item at rank `r1` in the
semantic list and `r2` in the keyword list, and the contribution 0 for a
list it is absent from; its match type is `semantic` if it appears only in
the semantic list, `keyword` if only in the keyword list, and `hybrid` if
in both.  (The engines return each item at most once per list, whence the
no-duplicate hypotheses.) -/
theorem C1_fusion_rrf_score_and_match_type (S K : List (ContentItem × ℚ))
    (ws wk : ℚ) (key : String)
    (hS : (S.map (fun p => p.1.id)).Nodup) (hK : (K.map (fun p => p.1.id)).Nodup) :
    dscore (fuseMap S K ws wk) key =
      ws * rrfContrib (S.map (fun p => p.1.id)) key +
      wk * rrfContrib (K.map (fun p => p.1.id)) key ∧
    dmt (fuseMap S K ws wk) key =
      (match rankOf (S.map (fun p => p.1.id)) key,
             rankOf (K.map (fun p => p.1.id)) key with
       | some _, some _ => some "hybrid"
       | some _, none => some "semantic"
       | none, some _ => some "keyword"
       | none, none => none) := by
  have hKe : ((K.enum).map (fun p => p.2.1.id)).Nodup := by
    rw [List.enum_eq_enumFrom, enumFrom_map_ids]
    exact hK
  constructor
  · show dscore ((K.enum).foldl (fun d p => fuseKwStep wk d p.1 p.2.1)
      ((S.enum).foldl (fun d p => fuseSemStep ws d p.1 p.2.1) [])) key = _
    rw [dscore_foldKw, dscore_foldSem, pairContrib_enum S key hS,
      pairContrib_enum K key hK]
    show 0 + ws * _ + wk * _ = _
    rw [zero_add]
  · show dmt ((K.enum).foldl (fun d p => fuseKwStep wk d p.1 p.2.1)
      ((S.enum).foldl (fun d p => fuseSemStep ws d p.1 p.2.1) [])) key = _
    rw [dmt_foldKw wk K.enum key hKe, dmt_foldSem]
    have hdnil : dmt ([] : List (String × FEntry)) key = none := rfl
    by_cases hs : key ∈ S.map (fun q => q.1.id) <;>
      by_cases hk : key ∈ K.map (fun q => q.1.id)
    · rw [if_pos ((exists_enum_id_iff K key).mpr hk),
        if_pos ((exists_enum_id_iff S key).mpr hs), hdnil]
      cases hrs : rankOf (S.map fun q => q.1.id) key with
      | none => exact absurd hs ((rankOf_eq_none_iff _ key).mp hrs)
      | some rs =>
        cases hrk : rankOf (K.map fun q => q.1.id) key with
        | none => exact absurd hk ((rankOf_eq_none_iff _ key).mp hrk)
        | some rk => rfl
    · rw [if_neg (fun hc => hk ((exists_enum_id_iff K key).mp hc)),
        if_pos ((exists_enum_id_iff S key).mpr hs), hdnil]
      cases hrs : rankOf (S.map fun q => q.1.id) key with
      | none => exact absurd ((rankOf_eq_none_iff _ key).mp hrs) (by simp [hs])
      | some rs =>
        rw [(rankOf_eq_none_iff _ key).mpr hk]
        rfl
    · rw [if_pos ((exists_enum_id_iff K key).mpr hk),
        if_neg (fun hc => hs ((exists_enum_id_iff S key).mp hc)), hdnil]
      cases hrk : rankOf (K.map fun q => q.1.id) key with
      | none => exact absurd ((rankOf_eq_none_iff _ key).mp hrk) (by simp [hk])
      | some rk =>
        rw [(rankOf_eq_none_iff _ key).mpr hs]
    · rw [if_neg (fun hc => hk ((exists_enum_id_iff K key).mp hc)),
        if_neg (fun hc => hs ((exists_enum_id_iff S key).mp hc)), hdnil,
        (rankOf_eq_none_iff _ key).mpr hs, (rankOf_eq_none_iff _ key).mpr hk]

/-- Witness for C1: item "x" at rank 0 in both lists with weights 0.7/0.3
scores 0.7/1 + 0.3/1 = 1 and is `hybrid`; item "y" only at rank 1 of the
keyword list scores 0.3/2 and is `keyword`. -/
theorem C1_fusion_rrf_score_and_match_type_witness :
    dscore (fuseMap [(mkItem "x" "tx", 9/10)]
      [(mkItem "x" "tx", 2), (mkItem "y" "ty", 1)] (7/10) (3/10)) "x" =
      (7/10) * rrfContrib ["x"] "x" + (3/10) * rrfContrib ["x", "y"] "x" ∧
    dmt (fuseMap [(mkItem "x" "tx", 9/10)]
      [(mkItem "x" "tx", 2), (mkItem "y" "ty", 1)] (7/10) (3/10)) "x" =
      some "hybrid" := by
  have h := C1_fusion_rrf_score_and_match_type [(mkItem "x" "tx", 9/10)]
    [(mkItem "x" "tx", 2), (mkItem "y" "ty", 1)] (7/10) (3/10) "x"
    (by simp [mkItem]) (by simp [mkItem])
  refine ⟨?_, ?_⟩
  · have h1 := h.1
    simpa [mkItem] using h1
  · have h2 := h.2
    simpa [mkItem, rankOf] using h2

/-! ## Sorting lemmas for the lexical top-k -/

lemma argsortAsc_perm (scores : List ℚ) :
    List.Perm (argsortAsc scores) (List.range scores.length) :=
  List.perm_insertionSort _ _

lemma argsortAsc_sorted (scores : List ℚ) :
    (argsortAsc scores).Pairwise (leIdx scores) :=
  List.sorted_insertionSort _ _

lemma argsortAsc_nodup (scores : List ℚ) : (argsortAsc scores).Nodup :=
  ((argsortAsc_perm scores).nodup_iff).mpr (List.nodup_range _)

lemma mem_argsortAsc (scores : List ℚ) {i : ℕ} :
    i ∈ argsortAsc scores ↔ i < scores.length := by
  rw [(argsortAsc_perm scores).mem_iff, List.mem_range]

lemma revArgsort_pairwise_gt (scores : List ℚ) :
    ((argsortAsc scores).reverse).Pairwise (gtIdx scores) := by
  have hs : ((argsortAsc scores).reverse).Pairwise (fun i j => leIdx scores j i) :=
    List.pairwise_reverse.mpr (argsortAsc_sorted scores)
  have hn : ((argsortAsc scores).reverse).Pairwise (fun i j => i ≠ j) :=
    List.nodup_reverse.mpr (argsortAsc_nodup scores)
  refine (hs.and hn).imp ?_
  rintro a b ⟨h | ⟨h1, h2⟩, hne⟩
  · exact Or.inl h
  · exact Or.inr ⟨h1.symm, lt_of_le_of_ne h2 (Ne.symm hne)⟩

lemma filter_take_of_pairwise {p : α → Bool} :
    ∀ {l : List α}, l.Pairwise (fun x y => p y = true → p x = true) →
    ∀ m : ℕ, (l.take m).filter p = (l.filter p).take m := by
  intro l
  induction l with
  | nil => intro _ m; simp
  | cons x l ih =>
    intro h m
    cases m with
    | zero => simp
    | succ m =>
      rw [List.take_succ_cons]
      by_cases hx : p x = true
      · rw [List.filter_cons_of_pos hx, List.filter_cons_of_pos hx,
          List.take_succ_cons, ih h.of_cons m]
      · have hall : ∀ y ∈ l, ¬ p y = true := fun y hy hpy =>
          hx (List.rel_of_pairwise_cons h hy hpy)
        rw [List.filter_cons_of_neg hx, List.filter_cons_of_neg hx,
          List.filter_eq_nil_iff.mpr (fun y hy => hall y (List.mem_of_mem_take hy)),
          List.filter_eq_nil_iff.mpr hall, List.take_nil]

lemma kwScores_length (items : List ContentItem) (query : String) :
    (kwScores items query).length = items.length := by
  simp [kwScores, KeywordSearchEngine.scoresOf, KeywordSearchEngine.build_index,
    BM25.getScores]

lemma pyTake_of_nonneg {k : ℤ} (hk : 0 ≤ k) (xs : List α) :
    pyTake k xs = xs.take k.toNat := by
  unfold pyTake
  rw [if_pos hk]

lemma rev_filter_eq (scores : List ℚ) (n : ℕ) (hlen : scores.length = n) (m : ℕ) :
    (((argsortAsc scores).reverse.take m).filter
        (fun i => decide (i < n) && decide (0 < scoreAt scores i))) =
      ((argsortAsc scores).reverse.filter
        (fun i => decide (0 < scoreAt scores i))).take m := by
  have hcong : (((argsortAsc scores).reverse.take m).filter
      (fun i => decide (i < n) && decide (0 < scoreAt scores i))) =
      (((argsortAsc scores).reverse.take m).filter
        (fun i => decide (0 < scoreAt scores i))) := by
    apply List.filter_congr
    intro i hi
    have hmem : i ∈ (argsortAsc scores).reverse := List.mem_of_mem_take hi
    have hlt : i < n := hlen ▸ (mem_argsortAsc scores).mp (List.mem_reverse.mp hmem)
    simp [hlt]
  rw [hcong]
  apply filter_take_of_pairwise
  refine (revArgsort_pairwise_gt scores).imp ?_
  rintro a b (h | ⟨h1, h2⟩) hpb <;> simp only [decide_eq_true_eq] at hpb ⊢
  · exact lt_trans hpb h
  · rw [h1]
    exact hpb

lemma rev_filter_pos_pairwise (scores : List ℚ) :
    ((argsortAsc scores).reverse.filter
      (fun i => decide (0 < scoreAt scores i))).Pairwise (gtIdx scores) :=
  List.Pairwise.sublist (List.filter_sublist _) (revArgsort_pairwise_gt scores)

lemma rev_filter_pos_length (scores : List ℚ) (n : ℕ) (hlen : scores.length = n) :
    ((argsortAsc scores).reverse.filter
      (fun i => decide (0 < scoreAt scores i))).length =
    ((List.range n).filter (fun i => decide (0 < scoreAt scores i))).length := by
  have hperm : List.Perm ((argsortAsc scores).reverse) (List.range n) :=
    hlen ▸ (List.reverse_perm _).trans (argsortAsc_perm scores)
  exact (hperm.filter _).length_eq

/-! ## Fusion dict well-formedness (unique keys, key = item id) -/

lemma dmodify_map_fst (d : List (String × β)) (key : String) (f : β → β) :
    (dmodify d key f).map Prod.fst = d.map Prod.fst := by
  induction d with
  | nil => rfl
  | cons q d ih =>
    obtain ⟨a, b⟩ := q
    by_cases h : a = key <;> simp [dmodify, h, ih]

lemma dmodify_pres_ids (d : List (String × FEntry)) (key : String)
    (f : FEntry → FEntry) (hf : ∀ e, (f e).item = e.item)
    (h : ∀ p ∈ d, p.2.item.id = p.1) :
    ∀ p ∈ dmodify d key f, p.2.item.id = p.1 := by
  induction d with
  | nil => intro p hp; simp [dmodify] at hp
  | cons q d ih =>
    obtain ⟨a, b⟩ := q
    intro p hp
    simp only [dmodify] at hp
    rcases List.mem_cons.mp hp with hph | hp'
    · subst hph
      by_cases hq : a = key
      · simp only [if_pos hq]
        show (f b).item.id = a
        rw [hf b]
        exact h (a, b) (List.mem_cons_self _ _)
      · simp only [if_neg hq]
        exact h (a, b) (List.mem_cons_self _ _)
    · exact ih (fun r hr => h r (List.mem_cons_of_mem _ hr)) p hp'

lemma append_entry_wf (d : List (String × FEntry)) (item : ContentItem)
    (e0 : FEntry) (he0 : e0.item = item)
    (habs : dget d item.id = none)
    (h1 : (d.map Prod.fst).Nodup) (h2 : ∀ p ∈ d, p.2.item.id = p.1) :
    (((d ++ [(item.id, e0)]).map Prod.fst).Nodup ∧
      ∀ p ∈ d ++ [(item.id, e0)], p.2.item.id = p.1) := by
  constructor
  · rw [List.map_append]
    rw [List.nodup_append]
    refine ⟨h1, List.nodup_singleton _, ?_⟩
    intro a ha hb
    simp only [List.map_cons, List.map_nil, List.mem_singleton] at hb
    subst hb
    exact (dget_eq_none_iff d item.id).mp habs ha
  · intro p hp
    rcases List.mem_append.mp hp with hp' | hp'
    · exact h2 p hp'
    · simp only [List.mem_singleton] at hp'
      subst hp'
      show e0.item.id = item.id
      rw [he0]

lemma fuseSemStep_wf (w : ℚ) (d : List (String × FEntry)) (rank : ℕ)
    (item : ContentItem)
    (h1 : (d.map Prod.fst).Nodup) (h2 : ∀ p ∈ d, p.2.item.id = p.1) :
    (((fuseSemStep w d rank item).map Prod.fst).Nodup ∧
      ∀ p ∈ fuseSemStep w d rank item, p.2.item.id = p.1) := by
  unfold fuseSemStep
  cases habs : dget d item.id with
  | none =>
    simp only [habs, Option.isNone_none, eq_self_iff_true, if_true]
    have hwf := append_entry_wf d item ⟨item, 0, "semantic"⟩ rfl habs h1 h2
    exact ⟨by rw [dmodify_map_fst]; exact hwf.1,
      dmodify_pres_ids _ _ _ (fun e => rfl) hwf.2⟩
  | some e =>
    simp only [habs, Option.isNone_some, Bool.false_eq_true, if_false]
    exact ⟨by rw [dmodify_map_fst]; exact h1,
      dmodify_pres_ids _ _ _ (fun e => rfl) h2⟩

lemma fuseKwStep_wf (w : ℚ) (d : List (String × FEntry)) (rank : ℕ)
    (item : ContentItem)
    (h1 : (d.map Prod.fst).Nodup) (h2 : ∀ p ∈ d, p.2.item.id = p.1) :
    (((fuseKwStep w d rank item).map Prod.fst).Nodup ∧
      ∀ p ∈ fuseKwStep w d rank item, p.2.item.id = p.1) := by
  unfold fuseKwStep
  cases habs : dget d item.id with
  | none =>
    simp only [habs, Option.isNone_none, eq_self_iff_true, if_true]
    have hwf := append_entry_wf d item ⟨item, 0, "keyword"⟩ rfl habs h1 h2
    exact ⟨by rw [dmodify_map_fst]; exact hwf.1,
      dmodify_pres_ids _ _ _ (fun e => rfl) hwf.2⟩
  | some e =>
    simp only [habs, Option.isNone_some, Bool.false_eq_true, if_false]
    have hmid : ((dmodify d item.id
        (fun e => { e with match_type := "hybrid" })).map Prod.fst).Nodup := by
      rw [dmodify_map_fst]
      exact h1
    have hmid2 := dmodify_pres_ids d item.id
      (fun e => { e with match_type := "hybrid" }) (fun e => rfl) h2
    exact ⟨by rw [dmodify_map_fst]; exact hmid,
      dmodify_pres_ids _ _ _ (fun e => rfl) hmid2⟩

lemma foldSem_wf (w : ℚ) (pairs : List (ℕ × (ContentItem × ℚ))) :
    ∀ d : List (String × FEntry), (d.map Prod.fst).Nodup →
    (∀ p ∈ d, p.2.item.id = p.1) →
    (((pairs.foldl (fun d p => fuseSemStep w d p.1 p.2.1) d).map Prod.fst).Nodup ∧
      ∀ p ∈ pairs.foldl (fun d p => fuseSemStep w d p.1 p.2.1) d,
        p.2.item.id = p.1) := by
  induction pairs with
  | nil => intro d h1 h2; exact ⟨h1, h2⟩
  | cons p ps ih =>
    intro d h1 h2
    have hs := fuseSemStep_wf w d p.1 p.2.1 h1 h2
    exact ih _ hs.1 hs.2

lemma foldKw_wf (w : ℚ) (pairs : List (ℕ × (ContentItem × ℚ))) :
    ∀ d : List (String × FEntry), (d.map Prod.fst).Nodup →
    (∀ p ∈ d, p.2.item.id = p.1) →
    (((pairs.foldl (fun d p => fuseKwStep w d p.1 p.2.1) d).map Prod.fst).Nodup ∧
      ∀ p ∈ pairs.foldl (fun d p => fuseKwStep w d p.1 p.2.1) d,
        p.2.item.id = p.1) := by
  induction pairs with
  | nil => intro d h1 h2; exact ⟨h1, h2⟩
  | cons p ps ih =>
    intro d h1 h2
    have hs := fuseKwStep_wf w d p.1 p.2.1 h1 h2
    exact ih _ hs.1 hs.2

lemma fuseMap_wf (S K : List (ContentItem × ℚ)) (ws wk : ℚ) :
    (((fuseMap S K ws wk).map Prod.fst).Nodup ∧
      ∀ p ∈ fuseMap S K ws wk, p.2.item.id = p.1) := by
  unfold fuseMap foldRanked
  have hsem := foldSem_wf ws S.enum [] (by simp) (by simp)
  exact foldKw_wf wk K.enum _ hsem.1 hsem.2

lemma fuseMap_value_ids_nodup (S K : List (ContentItem × ℚ)) (ws wk : ℚ) :
    (((fuseMap S K ws wk).map (fun p => p.2)).map (fun e => e.item.id)).Nodup := by
  have hwf := fuseMap_wf S K ws wk
  have heq : ((fuseMap S K ws wk).map (fun p => p.2)).map (fun e => e.item.id) =
      (fuseMap S K ws wk).map Prod.fst := by
    rw [List.map_map]
    exact List.map_congr_left (fun p hp => hwf.2 p hp)
  rw [heq]
  exact hwf.1

lemma pyTake_sublist (k : ℤ) (xs : List α) : List.Sublist (pyTake k xs) xs := by
  unfold pyTake
  split <;> exact List.take_sublist _ _

lemma hybridCandidates_ids_nodup (S K : List (ContentItem × ℚ)) (ws wk : ℚ) :
    ((hybridCandidates S K ws wk).map (fun r => r.content_item.id)).Nodup := by
  unfold hybridCandidates
  rw [List.map_map]
  have hsub : List.Sublist
      (((fuseMap S K ws wk).map (fun p => p.2)).filter (fun e => decide (0 < e.rrf_score)))
      ((fuseMap S K ws wk).map (fun p => p.2)) := List.filter_sublist _
  have hnd := fuseMap_value_ids_nodup S K ws wk
  exact List.Nodup.sublist (hsub.map _) hnd

lemma hybridCandidates_pos (S K : List (ContentItem × ℚ)) (ws wk : ℚ) :
    ∀ r ∈ hybridCandidates S K ws wk, 0 < r.relevance_score := by
  unfold hybridCandidates
  intro r hr
  obtain ⟨e, he, rfl⟩ := List.mem_map.mp hr
  have := (List.mem_filter.mp he).2
  simpa using this

lemma hybrid_pipeline_props (S K : List (ContentItem × ℚ)) (sw kw : ℚ) (k : ℤ) :
    (∀ r ∈ pyTake k (List.insertionSort
        (fun a b : SearchResult => b.relevance_score ≤ a.relevance_score)
        (hybridCandidates S K sw kw)), 0 < r.relevance_score) ∧
    ((pyTake k (List.insertionSort
        (fun a b : SearchResult => b.relevance_score ≤ a.relevance_score)
        (hybridCandidates S K sw kw))).map (fun r => r.content_item.id)).Nodup ∧
    (0 ≤ k → ((pyTake k (List.insertionSort
        (fun a b : SearchResult => b.relevance_score ≤ a.relevance_score)
        (hybridCandidates S K sw kw))).length : ℤ) ≤ k) := by
  refine ⟨?_, ?_, ?_⟩
  · intro r hr
    have h1 : r ∈ List.insertionSort
        (fun a b : SearchResult => b.relevance_score ≤ a.relevance_score)
        (hybridCandidates S K sw kw) := (pyTake_sublist k _).subset hr
    have h2 : r ∈ hybridCandidates S K sw kw :=
      ((List.perm_insertionSort _ _).mem_iff).mp h1
    exact hybridCandidates_pos S K sw kw r h2
  · have hnds : ((List.insertionSort
        (fun a b : SearchResult => b.relevance_score ≤ a.relevance_score)
        (hybridCandidates S K sw kw)).map (fun r => r.content_item.id)).Nodup := by
      have hperm := List.perm_insertionSort
        (fun a b : SearchResult => b.relevance_score ≤ a.relevance_score)
        (hybridCandidates S K sw kw)
      exact ((hperm.map _).nodup_iff).mpr (hybridCandidates_ids_nodup S K sw kw)
    exact List.Nodup.sublist ((pyTake_sublist k _).map _) hnds
  · intro hk
    rw [pyTake_of_nonneg hk]
    have hle : (List.take k.toNat (List.insertionSort
        (fun a b : SearchResult => b.relevance_score ≤ a.relevance_score)
        (hybridCandidates S K sw kw))).length ≤ k.toNat := by
      rw [List.length_take]
      exact min_le_left _ _
    calc ((List.take k.toNat (List.insertionSort
        (fun a b : SearchResult => b.relevance_score ≤ a.relevance_score)
        (hybridCandidates S K sw kw))).length : ℤ)
        ≤ (k.toNat : ℤ) := by exact_mod_cast hle
      _ = k := Int.toNat_of_nonneg hk

/-! ## Claim C6: lexical top-k (corrected tie order) -/

/-- C6 (amended): for every built lexical index, query, and positive `k`,
the search returns exactly the top-`k` documents with strictly positive
score, in descending score order — but ties between equal-scoring documents
are broken by the REVERSE of the original item order (the later-indexed
item first), because `np.argsort(scores)[::-1]` reverses the ascending
argsort.  Conjuncts: the returned pairs are exactly the ranked index list
mapped to (item, score); every emitted index is in range with strictly
positive score; the emitted order is strictly descending with
later-index-first ties (`gtIdx`); the length is `min k #positives`; and
every positive-scoring document left out is ranked strictly below every
emitted one. -/
theorem C6_lexical_topk_corrected (items : List ContentItem) (query : String)
    (k : ℤ) (hk : 1 ≤ k) :
    KeywordSearchEngine.search (KeywordSearchEngine.build_index items) query k =
      (kwTopIdx items query k).map
        (fun i => (items.getD i dfltItem, scoreAt (kwScores items query) i)) ∧
    (∀ i ∈ kwTopIdx items query k,
      i < items.length ∧ 0 < scoreAt (kwScores items query) i) ∧
    (kwTopIdx items query k).Pairwise (gtIdx (kwScores items query)) ∧
    (kwTopIdx items query k).length =
      min k.toNat ((List.range items.length).filter
        (fun i => decide (0 < scoreAt (kwScores items query) i))).length ∧
    (∀ i : ℕ, i < items.length → 0 < scoreAt (kwScores items query) i →
      i ∉ kwTopIdx items query k →
      ∀ j ∈ kwTopIdx items query k, gtIdx (kwScores items query) j i) := by
  have hlen : (kwScores items query).length = items.length := kwScores_length items query
  have hk0 : (0 : ℤ) ≤ k := le_trans (by norm_num) hk
  have hidx : kwTopIdx items query k =
      (pyTake k (argsortAsc (kwScores items query)).reverse).filter
        (fun i => decide (i < items.length) &&
          decide (0 < scoreAt (kwScores items query) i)) := rfl
  have hidx2 : kwTopIdx items query k =
      ((argsortAsc (kwScores items query)).reverse.filter
        (fun i => decide (0 < scoreAt (kwScores items query) i))).take k.toNat := by
    rw [hidx, pyTake_of_nonneg hk0, rev_filter_eq (kwScores items query) items.length hlen]
  refine ⟨rfl, ?_, ?_, ?_, ?_⟩
  · intro i hi
    rw [hidx] at hi
    obtain ⟨_, hp⟩ := List.mem_filter.mp hi
    simpa using hp
  · rw [hidx2]
    exact List.Pairwise.sublist (List.take_sublist _ _)
      (rev_filter_pos_pairwise (kwScores items query))
  · rw [hidx2, List.length_take,
      rev_filter_pos_length (kwScores items query) items.length hlen]
  · intro i hin hipos hnot j hj
    rw [hidx2] at hnot hj
    have himem : i ∈ (argsortAsc (kwScores items query)).reverse.filter
        (fun i => decide (0 < scoreAt (kwScores items query) i)) :=
      List.mem_filter.mpr
        ⟨List.mem_reverse.mpr ((mem_argsortAsc _).mpr (hlen ▸ hin)), by simpa using hipos⟩
    have hsplit := List.take_append_drop k.toNat
      ((argsortAsc (kwScores items query)).reverse.filter
        (fun i => decide (0 < scoreAt (kwScores items query) i)))
    have hpw : (((argsortAsc (kwScores items query)).reverse.filter
        (fun i => decide (0 < scoreAt (kwScores items query) i))).take k.toNat ++
        ((argsortAsc (kwScores items query)).reverse.filter
        (fun i => decide (0 < scoreAt (kwScores items query) i))).drop k.toNat).Pairwise
        (gtIdx (kwScores items query)) := by
      rw [hsplit]
      exact rev_filter_pos_pairwise (kwScores items query)
    have hdrop : i ∈ ((argsortAsc (kwScores items query)).reverse.filter
        (fun i => decide (0 < scoreAt (kwScores items query) i))).drop k.toNat := by
      rcases List.mem_append.mp (hsplit ▸ himem) with h | h
      · exact absurd h hnot
      · exact h
    exact (List.pairwise_append.mp hpw).2.2 j hj i hdrop

/-- C6 counterexample to the claimed tie order: items `d0` and `d1` (both
titled "pump") score equally (12/5) for the query "pump", yet the search
returns the LATER-indexed `d1` first — the original claim's
"earlier-indexed item comes first" is false at this input. -/
theorem C6_tie_order_counterexample :
    KeywordSearchEngine.search (KeywordSearchEngine.build_index docsC6) "pump" 10 =
      [(mkItem "d1" "pump", 12/5), (mkItem "d0" "pump", 12/5)] ∧
    ¬ ((KeywordSearchEngine.search (KeywordSearchEngine.build_index docsC6)
        "pump" 10).map (fun p => p.1.id) = ["d0", "d1"]) := by
  have h : KeywordSearchEngine.search (KeywordSearchEngine.build_index docsC6)
      "pump" 10 = [(mkItem "d1" "pump", 12/5), (mkItem "d0" "pump", 12/5)] := by
    norm_num +decide [KeywordSearchEngine.search, KeywordSearchEngine.searchIdx,
      KeywordSearchEngine.scoresOf, KeywordSearchEngine.build_index, docsC6,
      mkItem, tokenize, BM25.getScores, BM25.scoreDoc, BM25.idf, BM25.df,
      BM25.avgdl, BM25.corpusSize, BM25.k1, BM25.bParam, argsortAsc, leIdx,
      pyTake, scoreAt, List.insertionSort, List.orderedInsert, List.splitOnP,
      List.splitOnP.go, List.count_cons, List.filter, List.getElem?_cons_zero,
      List.getElem?_cons_succ, Option.getD_some, List.take_succ_cons,
      List.take_nil, Int.toNat_ofNat, List.getD]
  refine ⟨h, ?_⟩
  rw [h]
  simp [mkItem]

/-- Witness for C6 (amended): two items titled "pump" and "valve", query
"pump", `k = 1`. -/
theorem C6_lexical_topk_corrected_witness :
    (∀ i ∈ kwTopIdx [mkItem "a" "pump", mkItem "b" "valve"] "pump" 1,
      i < 2 ∧ 0 < scoreAt (kwScores [mkItem "a" "pump", mkItem "b" "valve"] "pump") i) ∧
    (kwTopIdx [mkItem "a" "pump", mkItem "b" "valve"] "pump" 1).length =
      min (1 : ℤ).toNat ((List.range 2).filter
        (fun i => decide (0 < scoreAt
          (kwScores [mkItem "a" "pump", mkItem "b" "valve"] "pump") i))).length := by
  have h := C6_lexical_topk_corrected [mkItem "a" "pump", mkItem "b" "valve"] "pump" 1
    (by norm_num)
  exact ⟨fun i hi => by simpa using (h.2.1 i hi), by simpa using h.2.2.2.1⟩

/-! ## Claim C7: the load path performs no invariant check -/

/-- C7 counterexample: `disk7` violates the §3 count invariant (2 stored
vectors, 1 content item), yet initialization loads it, marks the service
initialized, and serves it — no rebuild happens (the parsed item "b" is not
indexed; the loaded engines still hold item "a" with 2 vectors). -/
theorem C7_invariant_violation_loaded_counterexample :
    initService enc0 config disk7 [mkItem "b" "beta"] [] [] =
      Except.ok
        (⟨⟨[mkItem "a" "alpha"], some [[1, 0], [0, 1]], some [[1, 0], [0, 1]]⟩,
          ⟨[mkItem "a" "alpha"], [["alpha"]], some ⟨[["alpha"]]⟩⟩,
          [mkItem "b" "beta"], [mkItem "b" "beta"], [], [], true⟩, disk7) ∧
    ([[1, 0], [0, 1]] : List (List ℚ)).length ≠ [mkItem "a" "alpha"].length := by
  refine ⟨rfl, by simp⟩

/-- C7 (amended): a full rebuild happens exactly when one of the three
artifact files is missing or unreadable; when all three are readable the
pair is loaded verbatim — including a pair violating the structural count
invariant — marked initialized, and used to serve queries.  No invariant
check is performed on a loaded pair. -/
theorem C7_load_rejected_only_on_missing_artifact (enc : String → List ℚ)
    (cfg : Config) (disk : Disk) (figures tables text_blocks : List ContentItem) :
    (∀ vecs meta kwf, disk.faissFile = some vecs → disk.metadataFile = some meta →
      disk.keywordFile = some kwf →
      initService enc cfg disk figures tables text_blocks =
        Except.ok (⟨⟨meta.1, some vecs, some meta.2⟩,
          ⟨kwf.1, kwf.2.1, some kwf.2.2⟩,
          figures ++ tables, figures, tables, text_blocks, true⟩, disk)) ∧
    ((disk.faissFile = none ∨ disk.metadataFile = none ∨ disk.keywordFile = none) →
      figures ++ tables ≠ [] →
      initService enc cfg disk figures tables text_blocks =
        Except.ok (⟨EmbeddingSearchEngine.build_index enc cfg (figures ++ tables),
          KeywordSearchEngine.build_index (figures ++ tables),
          figures ++ tables, figures, tables, text_blocks, true⟩,
          saveIndices (EmbeddingSearchEngine.build_index enc cfg (figures ++ tables))
            (KeywordSearchEngine.build_index (figures ++ tables)))) ∧
    ((disk.faissFile = none ∨ disk.metadataFile = none ∨ disk.keywordFile = none) →
      figures ++ tables = [] →
      initService enc cfg disk figures tables text_blocks =
        Except.error "No content items found during parsing") := by
  obtain ⟨df, dm, dk⟩ := disk
  refine ⟨?_, ?_, ?_⟩
  · rintro vecs meta kwf h1 h2 h3
    subst h1
    subst h2
    subst h3
    rfl
  · intro h hne
    cases df <;> cases dm <;> cases dk <;>
      simp_all [initService, EmbeddingSearchEngine.load_index,
        KeywordSearchEngine.load_index]
  · intro h heq
    cases df <;> cases dm <;> cases dk <;>
      simp_all [initService, EmbeddingSearchEngine.load_index,
        KeywordSearchEngine.load_index]

/-- Witness for C7 (amended), applying the theorem on a disk with a missing
keyword artifact: a full rebuild of both indices happens. -/
theorem C7_load_rejected_only_on_missing_artifact_witness :
    initService enc0 config ⟨some [[1, 0]], some ([mkItem "a" "alpha"], [[1, 0]]), none⟩
      [mkItem "b" "beta"] [] [] =
      Except.ok (⟨EmbeddingSearchEngine.build_index enc0 config
          ([mkItem "b" "beta"] ++ []),
        KeywordSearchEngine.build_index ([mkItem "b" "beta"] ++ []),
        [mkItem "b" "beta"] ++ [], [mkItem "b" "beta"], [], [], true⟩,
        saveIndices (EmbeddingSearchEngine.build_index enc0 config
            ([mkItem "b" "beta"] ++ []))
          (KeywordSearchEngine.build_index ([mkItem "b" "beta"] ++ []))) :=
  (C7_load_rejected_only_on_missing_artifact enc0 config
    ⟨some [[1, 0]], some ([mkItem "a" "alpha"], [[1, 0]]), none⟩
    [mkItem "b" "beta"] [] []).2.1 (Or.inr (Or.inr rfl)) (by simp)

lemma mkSearchResponse_results (q : String) (l : List SearchResult) :
    (mkSearchResponse q l).results = l := by
  unfold mkSearchResponse
  split_ifs <;> rfl

/-! ## Claim C9: caller-visible result budget -/

/-- C9 (amended): for every initialized-or-not service state, analysis
outcome, query, and caller-supplied maximum result count `m ≥ 1`, the
number of results returned by a search is at most `min m 5` — the minimum
of the caller's request and the internal strategy's fixed budget of 5.  (A
caller-supplied count of 0 is falsy in Python and is replaced by the
default 10, so the bound as originally claimed fails at `m = 0` — see the
counterexample.) -/
theorem C9_result_count_bounded_corrected (enc : String → List ℚ)
    (analysis : Analysis) (st : ServiceState) (q : String) (m : ℤ) (hm : 1 ≤ m) :
    ((serviceSearch enc config analysis st ⟨q, some m⟩).results.length : ℤ) ≤
      min m 5 := by
  have hmin0 : (0 : ℤ) ≤ min m 5 := le_min (by linarith) (by norm_num)
  unfold serviceSearch
  cases hb : st.initialized with
  | false =>
    simp only [hb, Bool.not_false, if_pos]
    simpa using hmin0
  | true =>
    simp only [hb, Bool.not_true, Bool.false_eq_true, if_false]
    have hpy : pyOr (some m) config.MAX_RESULTS = m := by
      show (if m = 0 then config.MAX_RESULTS else m) = m
      rw [if_neg (by omega : ¬ m = 0)]
    have h5 : (determine_search_strategy analysis).max_results = 5 := rfl
    rw [hpy, h5]
    have hlen : ((HybridSearchEngine.search enc config st.emb st.kw q (min m 5)
        (determine_search_strategy analysis).semantic_weight
        (determine_search_strategy analysis).keyword_weight
        (determine_search_strategy analysis).search_terms).length : ℤ) ≤ min m 5 :=
      (hybrid_pipeline_props
        (EmbeddingSearchEngine.search enc config st.emb q (min m 5))
        (if (determine_search_strategy analysis).search_terms ≠ [] then
          keywordFromTerms st.kw (determine_search_strategy analysis).search_terms (min m 5)
         else KeywordSearchEngine.search st.kw q (min m 5))
        (determine_search_strategy analysis).semantic_weight
        (determine_search_strategy analysis).keyword_weight (min m 5)).2.2 hmin0
    cases hf : (determine_search_strategy analysis).content_type_filter with
    | none =>
      simp only [hf]
      rw [mkSearchResponse_results]
      exact hlen
    | some f =>
      simp only [hf]
      cases hct : contentTypeOfString f with
      | none => simpa using hmin0
      | some ct =>
        simp only [hct]
        rw [mkSearchResponse_results]
        calc ((List.filter _ _).length : ℤ)
            ≤ _ := by exact_mod_cast List.length_filter_le _ _
          _ ≤ min m 5 := hlen

/-- Witness for C9 (amended) at `m = 2` on the concretely initialized
service `stC9`. -/
theorem C9_result_count_bounded_corrected_witness :
    ((serviceSearch enc0 config anC9 stC9 ⟨"pump", some 2⟩).results.length : ℤ) ≤
      min 2 5 :=
  C9_result_count_bounded_corrected enc0 anC9 stC9 "pump" 2 (by norm_num)

/-- C9 counterexample: with a caller-supplied maximum of 0 (falsy in
Python, so `max_results or 10` replaces it with 10), the initialized
service returns 1 result for "pump" — more than `min 0 5 = 0`. -/
theorem C9_zero_max_results_counterexample :
    (serviceSearch enc0 config anC9 stC9 ⟨"pump", some 0⟩).results.length = 1 ∧
    ¬ (((serviceSearch enc0 config anC9 stC9 ⟨"pump", some 0⟩).results.length : ℤ) ≤
      min 0 5) := by
  have h : (serviceSearch enc0 config anC9 stC9 ⟨"pump", some 0⟩).results.length = 1 := by
    norm_num +decide [serviceSearch, stC9, anC9, initService, config, mkSearchResponse,
      determine_search_strategy, pyOr, contentTypeOfString,
      EmbeddingSearchEngine.load_index, KeywordSearchEngine.load_index,
      EmbeddingSearchEngine.build_index, EmbeddingSearchEngine.get_embedding,
      EmbeddingSearchEngine.search, normalize_L2, dot, faissTopk, geIdxFaiss,
      saveIndices, HybridSearchEngine.search, hybridCandidates, fuseMap,
      foldRanked, fuseKwStep, fuseSemStep, dget, dmodify,
      KeywordSearchEngine.search, KeywordSearchEngine.searchIdx,
      KeywordSearchEngine.scoresOf, KeywordSearchEngine.build_index, mkItem,
      enc0, tokenize, BM25.getScores, BM25.scoreDoc, BM25.idf, BM25.df,
      BM25.avgdl, BM25.corpusSize, BM25.k1, BM25.bParam, argsortAsc, leIdx,
      pyTake, scoreAt, List.insertionSort, List.orderedInsert, List.splitOnP,
      List.splitOnP.go, List.count_cons, List.filter, List.getElem?_cons_zero,
      List.getElem?_cons_succ, Option.getD_some, List.take_succ_cons,
      List.take_nil, Int.toNat_ofNat, List.getD, List.enum, List.enumFrom,
      List.dropWhile]
  exact ⟨h, by rw [h]; norm_num⟩

/-! ## Claim C10: hybrid fusion output invariants -/

/-- C10 (amended): for every query, weights, search-term list, and `k ≥ 0`,
every `SearchResult` returned by the hybrid fusion search has a strictly
positive relevance score, no content-item id appears twice, and the list
has at most `k` results.  (Score positivity and id uniqueness hold for
every `k`; the `at most k` bound as stated fails for negative `k`, where
Python's slice semantics apply — see the counterexample.) -/
theorem C10_hybrid_output_invariants (enc : String → List ℚ) (cfg : Config)
    (embSt : EmbeddingState) (kwSt : KeywordState) (query : String) (k : ℤ)
    (sw kw : ℚ) (terms : List String) :
    (∀ r ∈ HybridSearchEngine.search enc cfg embSt kwSt query k sw kw terms,
      0 < r.relevance_score) ∧
    ((HybridSearchEngine.search enc cfg embSt kwSt query k sw kw terms).map
      (fun r => r.content_item.id)).Nodup ∧
    (0 ≤ k →
      ((HybridSearchEngine.search enc cfg embSt kwSt query k sw kw terms).length : ℤ) ≤ k) :=
  hybrid_pipeline_props (EmbeddingSearchEngine.search enc cfg embSt query k)
    (if terms ≠ [] then keywordFromTerms kwSt terms k
     else KeywordSearchEngine.search kwSt query k) sw kw k

/-- Witness for C10 (amended) at a concrete call with `k = 2`. -/
theorem C10_hybrid_output_invariants_witness :
    ((HybridSearchEngine.search enc0 config ⟨[], none, none⟩
      (KeywordSearchEngine.build_index docsP) "pump" 2 (7/10) (3/10) []).length : ℤ) ≤ 2 :=
  (C10_hybrid_output_invariants enc0 config ⟨[], none, none⟩
    (KeywordSearchEngine.build_index docsP) "pump" 2 (7/10) (3/10) []).2.2 (by norm_num)

/-- C10 counterexample: at `k = -2` (reachable through Python's falsy/slice
semantics) the hybrid search over five matching documents returns 1 result,
so "at most k results" is false for this `k`. -/
theorem C10_negative_k_counterexample :
    (HybridSearchEngine.search enc0 config ⟨[], none, none⟩
      (KeywordSearchEngine.build_index docsP) "pump" (-2) (7/10) (3/10) []).length = 1 ∧
    ¬ (((HybridSearchEngine.search enc0 config ⟨[], none, none⟩
      (KeywordSearchEngine.build_index docsP) "pump" (-2) (7/10) (3/10) []).length : ℤ) ≤ -2) := by
  have h : (HybridSearchEngine.search enc0 config ⟨[], none, none⟩
      (KeywordSearchEngine.build_index docsP) "pump" (-2) (7/10) (3/10) []).length = 1 := by
    norm_num +decide [HybridSearchEngine.search, hybridCandidates, fuseMap,
      foldRanked, fuseKwStep, fuseSemStep, dget, dmodify,
      EmbeddingSearchEngine.search, KeywordSearchEngine.search,
      KeywordSearchEngine.searchIdx, KeywordSearchEngine.scoresOf,
      KeywordSearchEngine.build_index, docsP, mkItem, enc0, tokenize,
      BM25.getScores, BM25.scoreDoc, BM25.idf, BM25.df, BM25.avgdl,
      BM25.corpusSize, BM25.k1, BM25.bParam, argsortAsc, leIdx, pyTake,
      scoreAt, List.insertionSort, List.orderedInsert, List.splitOnP,
      List.splitOnP.go, List.count_cons, List.filter, List.getElem?_cons_zero,
      List.getElem?_cons_succ, Option.getD_some, List.take_succ_cons,
      List.take_nil, Int.toNat_ofNat, List.getD, List.enum, List.enumFrom]
  exact ⟨h, by rw [h]; norm_num⟩

/-! ## Claim C2: the search-strategy selector -/

/-- C2: `determine_search_strategy` is a pure function of the analysis
record: with confidence at least 0.6, non-empty `search_terms` give
keyword weight 0.6 / semantic weight 0.4 and empty `search_terms` give
0.7 / 0.3; confidence below 0.6 overrides to semantic 0.8 / keyword 0.2
regardless of the term-presence branch; `max_results` is always 5; the
content-type filter is the analysis content type unless it is `"any"`. -/
theorem C2_strategy_selector (a : Analysis) :
    ((3/5 : ℚ) ≤ a.confidence →
      (a.search_terms ≠ [] →
        (determine_search_strategy a).keyword_weight = 3/5 ∧
        (determine_search_strategy a).semantic_weight = 2/5) ∧
      (a.search_terms = [] →
        (determine_search_strategy a).keyword_weight = 7/10 ∧
        (determine_search_strategy a).semantic_weight = 3/10)) ∧
    (a.confidence < 3/5 →
      (determine_search_strategy a).semantic_weight = 4/5 ∧
      (determine_search_strategy a).keyword_weight = 1/5) ∧
    (determine_search_strategy a).max_results = 5 ∧
    (determine_search_strategy a).content_type_filter =
      (if a.content_type = "any" then none else some a.content_type) := by
  unfold determine_search_strategy
  refine ⟨fun hc => ?_, fun hc => ?_, ?_, ?_⟩
  · have hnc : ¬ a.confidence < 3/5 := not_lt.mpr hc
    refine ⟨fun ht => ?_, fun ht => ?_⟩ <;> simp [hnc, ht]
  · simp [hc]
  · simp
  · by_cases h : a.content_type = "any" <;> simp [h]

/-- Witness for C2 at a concrete analysis record. -/
theorem C2_strategy_selector_witness :
    (determine_search_strategy ⟨["valve"], "table", "", 9/10⟩).keyword_weight = 3/5 ∧
    (determine_search_strategy ⟨["valve"], "table", "", 9/10⟩).semantic_weight = 2/5 ∧
    (determine_search_strategy ⟨["valve"], "table", "", 9/10⟩).max_results = 5 ∧
    (determine_search_strategy ⟨["valve"], "table", "", 9/10⟩).content_type_filter = some "table" := by
  have h := C2_strategy_selector ⟨["valve"], "table", "", 9/10⟩
  have h1 := (h.1 (by norm_num)).1 (by simp)
  refine ⟨h1.1, h1.2, h.2.2.1, ?_⟩
  have h4 := h.2.2.2
  simpa using h4

/-! ## Claim C3: the result classifier decision table -/

/-- C3: for a non-empty result list, `select_best_result_with_llm` follows
the decision table exactly at its boundaries: an absent selected index or
confidence below 0.4 gives `insufficient_info` with no selection; at
confidence exactly 0.4 (with a selected index present, as the table's
earlier row requires) the status is not `insufficient_info`; at confidence
0.8 or above the status is `success` (hence never `multiple_candidates`);
for confidence in [0.4, 0.8) the status is `multiple_candidates` exactly
when another result index exists among the first 3, else `success`. -/
theorem C3_classifier_decision_table (results : List SearchResult)
    (llm : SelectionOutcome) (hne : results ≠ []) :
    ((llm.selected_index = none ∨ llm.confidence < 2/5) →
      (select_best_result_with_llm results llm).status = "insufficient_info" ∧
      (select_best_result_with_llm results llm).selected_index = none) ∧
    (llm.confidence = 2/5 → llm.selected_index ≠ none →
      (select_best_result_with_llm results llm).status ≠ "insufficient_info") ∧
    ((4/5 : ℚ) ≤ llm.confidence → llm.selected_index ≠ none →
      (select_best_result_with_llm results llm).status = "success") ∧
    (∀ s : ℤ, llm.selected_index = some s →
      (2/5 : ℚ) ≤ llm.confidence → llm.confidence < 4/5 →
      (((select_best_result_with_llm results llm).status = "multiple_candidates" ↔
          ∃ i : ℕ, i < results.length ∧ i < 3 ∧ (i : ℤ) ≠ s) ∧
        (¬ (∃ i : ℕ, i < results.length ∧ i < 3 ∧ (i : ℤ) ≠ s) →
          (select_best_result_with_llm results llm).status = "success"))) := by
  unfold select_best_result_with_llm
  simp only [if_neg hne]
  obtain ⟨sel, conf⟩ := llm
  refine ⟨fun h => ?_, fun h40 hsel => ?_, fun h80 hsel => ?_, fun s hs h40 h80 => ?_⟩
  · rcases h with h | h
    · subst h
      simp
    · cases sel with
      | none => simp
      | some s => simp [if_pos h]
  · cases sel with
    | none => exact absurd rfl hsel
    | some s =>
      have h1 : ¬ (conf < 2/5) := by simp at h40 ⊢; rw [h40]
      by_cases h2 : (4/5 : ℚ) ≤ conf
      · simp [h1, h2]
      · simp only [h1, h2, if_neg, if_false]
        split <;> simp
  · cases sel with
    | none => exact absurd rfl hsel
    | some s =>
      have h1 : ¬ (conf < 2/5) := by simp at h80 ⊢; linarith
      simp [h1, h80]
  · cases hs
    simp only at h40 h80
    have h1 : ¬ (conf < 2/5) := not_lt.mpr h40
    have h2 : ¬ ((4/5 : ℚ) ≤ conf) := not_le.mpr h80
    simp only [h1, h2, if_neg, if_false]
    have hfe : (List.filter (fun (i : ℕ) => decide ((i : ℤ) ≠ s) && decide (i < 3))
        (List.range results.length) ≠ []) ↔
        ∃ i : ℕ, i < results.length ∧ i < 3 ∧ (i : ℤ) ≠ s := by
      rw [Ne, List.filter_eq_nil_iff]
      push_neg
      constructor
      · rintro ⟨i, hi, hp⟩
        simp only [Bool.and_eq_true, decide_eq_true_eq] at hp
        exact ⟨i, List.mem_range.mp hi, hp.2, hp.1⟩
      · rintro ⟨i, hi, h3, hne'⟩
        exact ⟨i, List.mem_range.mpr hi, by simp [hne', h3]⟩
    by_cases hp : ∃ i : ℕ, i < results.length ∧ i < 3 ∧ (i : ℤ) ≠ s
    · rw [if_pos (hfe.mpr hp)]
      exact ⟨⟨fun _ => hp, fun _ => rfl⟩, fun hno => absurd hp hno⟩
    · rw [if_neg (fun hcon => hp (hfe.mp hcon))]
      exact ⟨⟨fun hst => absurd hst (by simp), fun hex => absurd hex hp⟩, fun _ => rfl⟩

/-- Witness for C3: one result, selected index 0, confidence exactly 0.4:
the status is not `insufficient_info`. -/
theorem C3_classifier_decision_table_witness :
    (select_best_result_with_llm [srOf (mkItem "a" "alpha")] ⟨some 0, 2/5⟩).status ≠
      "insufficient_info" :=
  (C3_classifier_decision_table [srOf (mkItem "a" "alpha")] ⟨some 0, 2/5⟩
    (by simp)).2.1 rfl (by simp)

/-! ## Claim C4: alternatives can exceed 2 (code bug) -/

/-- C4 failing input: four results, the external selector picks index 3
with confidence 0.5 (schema-valid: `selected_index` has a minimum of 0 but
no maximum).  The code returns `multiple_candidates` with THREE
alternatives `[0, 1, 2]`, contradicting the claimed (and code-commented)
bound of at most 2 alternatives. -/
theorem C4_three_alternatives_on_failing_input :
    (select_best_result_with_llm
        [srOf (mkItem "a" "alpha"), srOf (mkItem "b" "beta"),
         srOf (mkItem "c" "gamma"), srOf (mkItem "d" "delta")]
        ⟨some 3, 1/2⟩).status = "multiple_candidates" ∧
    (select_best_result_with_llm
        [srOf (mkItem "a" "alpha"), srOf (mkItem "b" "beta"),
         srOf (mkItem "c" "gamma"), srOf (mkItem "d" "delta")]
        ⟨some 3, 1/2⟩).alternative_indices = [0, 1, 2] ∧
    ¬ ((select_best_result_with_llm
        [srOf (mkItem "a" "alpha"), srOf (mkItem "b" "beta"),
         srOf (mkItem "c" "gamma"), srOf (mkItem "d" "delta")]
        ⟨some 3, 1/2⟩).alternative_indices.length ≤ 2) := by
  norm_num +decide [select_best_result_with_llm, srOf, mkItem, List.range,
    List.range.loop, List.filter]

/-! ## Claim C5: empty lexical build -/

/-- C5: building the lexical index over an empty collection succeeds (the
model of the spec-mandated behaviour; the construction is a total function)
and the resulting index returns an empty result sequence for every query
and every `k`. -/
theorem C5_empty_build_returns_empty (query : String) (k : ℤ) :
    KeywordSearchEngine.search (KeywordSearchEngine.build_index []) query k = [] := by
  simp [KeywordSearchEngine.search, KeywordSearchEngine.searchIdx,
    KeywordSearchEngine.scoresOf, KeywordSearchEngine.build_index,
    BM25.getScores, argsortAsc, pyTake, List.insertionSort]

/-! ## Claim C8: the empty query returns empty from both indices -/

/-- C8: for every index state and every `k`, the empty query string returns
an empty sequence from the lexical index (no tokens, hence all-zero scores,
none strictly positive) and from the vector index (the empty query embeds
to the zero vector without calling the encoder, every stored vector then
scores 0, which never exceeds the similarity threshold 0.7). -/
theorem C8_empty_query_empty_results (enc : String → List ℚ)
    (embSt : EmbeddingState) (kwSt : KeywordState) (k : ℤ) :
    EmbeddingSearchEngine.search enc config embSt "" k = [] ∧
    KeywordSearchEngine.search kwSt "" k = [] := by
  constructor
  · unfold EmbeddingSearchEngine.search
    cases hidx : embSt.index with
    | none => rfl
    | some vecs =>
      have hq : EmbeddingSearchEngine.get_embedding enc config "" =
          List.replicate config.EMBEDDING_DIMENSION 0 := rfl
      simp only [hq, normalize_L2]
      have hz : ∀ i : ℕ,
          scoreAt (vecs.map (fun v => dot (List.replicate config.EMBEDDING_DIMENSION 0) v)) i = 0 := by
        intro i
        refine scoreAt_of_forall_zero ?_ i
        intro x hx
        obtain ⟨v, _, rfl⟩ := List.mem_map.mp hx
        exact dot_replicate_zero _ v
      have hfil : ∀ i ∈ faissTopk
          (vecs.map (fun v => dot (List.replicate config.EMBEDDING_DIMENSION 0) v)) k,
          ¬ ((decide (i < embSt.content_items.length) &&
              decide (config.SIMILARITY_THRESHOLD <
                scoreAt (vecs.map (fun v => dot (List.replicate config.EMBEDDING_DIMENSION 0) v)) i)) = true) := by
        intro i _
        rw [hz i]
        simp only [Bool.and_eq_true, decide_eq_true_eq, not_and]
        intro _
        norm_num [config]
      rw [List.filter_eq_nil_iff.mpr hfil]
      rfl
  · unfold KeywordSearchEngine.search KeywordSearchEngine.searchIdx
      KeywordSearchEngine.scoresOf
    cases hbm : kwSt.bm25 with
    | none => rfl
    | some bm =>
      have ht : tokenize "" = [] := rfl
      simp only [ht]
      have hz : ∀ i : ℕ, scoreAt (bm.getScores []) i = 0 := by
        intro i
        refine scoreAt_of_forall_zero ?_ i
        intro x hx
        obtain ⟨d, _, rfl⟩ := List.mem_map.mp hx
        simp [BM25.scoreDoc]
      have hfil : ∀ i ∈ pyTake k (argsortAsc (bm.getScores [])).reverse,
          ¬ ((decide (i < kwSt.content_items.length) &&
              decide (0 < scoreAt (bm.getScores []) i)) = true) := by
        intro i _
        rw [hz i]
        simp
      rw [List.filter_eq_nil_iff.mpr hfil]
      rfl

end Raven






